import Mathlib

/-!
Verification of the tony-montemuro/http HTTP/1.0 server against its
natural-language specification.

Go byte strings are modelled as `List Nat` (each element an octet value);
Go `string` indexing, slicing and splitting are modelled with the
corresponding list operations.  Fallible Go functions returning
`(T, error)` are modelled as `Except String T` (or `Except GoErr T` at the
request-pipeline level, where the dynamic type of the error — ClientError,
ServerError, or a plain/io error — is observable).

Index-based Go loops whose index can jump forward are modelled with an
explicit fuel argument; the fuel passed at every call site is larger than
the number of iterations the Go loop can perform (each iteration advances
the index by at least one), so the models compute exactly what the Go
loops compute.
-/

deriving instance DecidableEq for Except

set_option maxRecDepth 100000

namespace HttpGo

/-- Byte strings: a Go `string` / `[]byte` is a list of octet values. -/
abbrev GoStr := List Nat

/-- Convert a Lean string literal (ASCII only) to its byte list. -/
def str (s : String) : GoStr := s.data.map Char.toNat

/-! ## internal/constructs: byte classifier (constructs.go) -/

/-- HttpByte.IsEscape: the percent byte. -/
def isEscape (b : Nat) : Bool := b == 37

/-- HttpByte.IsAlpha. -/
def isAlpha (b : Nat) : Bool := (97 ≤ b && b ≤ 122) || (65 ≤ b && b ≤ 90)

/-- HttpByte.IsNumeric. -/
def isNumeric (b : Nat) : Bool := 48 ≤ b && b ≤ 57

/-- Hex.Value (constructs.go): value of a hex digit byte, or error. -/
def hexValue (b : Nat) : Except String Nat :=
  if 48 ≤ b && b ≤ 57 then .ok (b - 48)
  else if 97 ≤ b && b ≤ 102 then .ok (b - 97 + 10)
  else if 65 ≤ b && b ≤ 70 then .ok (b - 65 + 10)
  else .error "escape sequence contains non-hex byte"

/-- HttpByte.IsHex. -/
def isHex (b : Nat) : Bool := (hexValue b).toOption.isSome

/-- HttpByte.IsReserved: one of ; / ? : @ & = + . -/
def isReserved (b : Nat) : Bool :=
  b == 59 || b == 47 || b == 63 || b == 58 || b == 64 || b == 38 || b == 61 || b == 43

/-- HttpByte.IsSafe: one of dollar - _ . . -/
def isSafe (b : Nat) : Bool := b == 36 || b == 45 || b == 95 || b == 46

/-- HttpByte.IsExtra: one of ! * quote ( ) , . -/
def isExtra (b : Nat) : Bool :=
  b == 33 || b == 42 || b == 39 || b == 40 || b == 41 || b == 44

/-- HttpByte.IsControl: below 32 or 127. -/
def isControl (b : Nat) : Bool := b < 32 || b == 127

/-- HttpByte.IsUnsafe (named isUnsafeChar here): control or one of SP quote hash percent lt gt. -/
def isUnsafeChar (b : Nat) : Bool :=
  isControl b || b == 32 || b == 34 || b == 35 || b == 37 || b == 60 || b == 62

/-- HttpByte.IsUnreserved. -/
def isUnreserved (b : Nat) : Bool :=
  isAlpha b || isNumeric b || isSafe b || isExtra b || (!isReserved b && !isUnsafeChar b)

/-- HttpByte.IsPChar: unreserved, escape, or one of : @ & = + . -/
def isPChar (b : Nat) : Bool :=
  isUnreserved b || isEscape b || b == 58 || b == 64 || b == 38 || b == 61 || b == 43

/-- HttpByte.IsUSAscii. -/
def isUSAscii (b : Nat) : Bool := b < 128

/-- HttpByte.IsQdTextByte. -/
def isQdText (b : Nat) : Bool := isUSAscii b && !isControl b && b != 34

/-- HttpByte.IsTSpecial: ( ) lt gt @ , ; : backslash quote / [ ] ? = SP HT. -/
def isTSpecial (b : Nat) : Bool :=
  b == 40 || b == 41 || b == 60 || b == 62 || b == 64 || b == 44 || b == 59 ||
  b == 58 || b == 92 || b == 34 || b == 47 || b == 91 || b == 93 || b == 63 ||
  b == 61 || b == 32 || b == 9

/-! ## internal/lws: linear-whitespace scanner (lws.go).

The Go code indexes the string; out-of-range reads are always guarded by
explicit bounds checks in the source, mirrored here with `List.getD`. -/

/-- Byte at index i, 0 when out of range (every read below is bounds-guarded
as in the Go source). -/
def at! (s : GoStr) (i : Nat) : Nat := s.getD i 0

/-- Greedy run of SP/HT ending position, starting scan at m (the loop of
getMinAndMax; fuel-driven, the index advances every step). -/
def lwsRunEnd (s : GoStr) : Nat → Nat → Nat
  | 0, m => m
  | fuel + 1, m =>
    if m < s.length && (at! s m == 32 || at! s m == 9) then lwsRunEnd s fuel (m + 1)
    else m

/-- getMinAndMax (lws.go): first index past the CRLF/initial byte, and past
the greedy SP/HT run. -/
def getMinAndMax (s : GoStr) (i : Nat) : Nat × Nat :=
  let min := if at! s i == 13 then i + 3 else i + 1
  (min, lwsRunEnd s (s.length + 1) min)

/-- lws.Check: whether an LWS sequence begins at i, and the first index past it. -/
def lwsCheck (s : GoStr) (i : Nat) : Bool × Nat :=
  if i ≥ s.length then (false, i)
  else if at! s i != 32 && at! s i != 9 && at! s i != 13 then (false, i)
  else if at! s i == 13 &&
      (i + 2 ≥ s.length || at! s (i+1) != 10 || (at! s (i+2) != 32 && at! s (i+2) != 9)) then
    (false, i)
  else (true, (getMinAndMax s i).2)

/-- lws.NewLine: a CRLF followed by at least one SP/HT; returns
(matched, first SP/HT index, index past the greedy run). -/
def lwsNewLine (s : GoStr) (i : Nat) : Bool × Nat × Nat :=
  if i + 2 ≥ s.length then (false, i, i)
  else if at! s i != 13 || at! s (i+1) != 10 then (false, i, i)
  else if at! s (i+2) != 32 && at! s (i+2) != 9 then (false, i, i)
  else (true, getMinAndMax s i)

/-- Loop of lws.TrimLeft: first non-LWS position (fuel-driven; each matched
step advances the index, so fuel s.length + 1 always suffices). -/
def trimLeftPos (s : GoStr) : Nat → Nat → Nat
  | 0, i => i
  | fuel + 1, i =>
    let c := lwsCheck s i
    if c.1 then trimLeftPos s fuel c.2 else i

/-- lws.TrimLeft. -/
def lwsTrimLeft (s : GoStr) : GoStr := s.drop (trimLeftPos s (s.length + 1) 0)

/-- Loop of lws.TrimRight: returns last+1 where last is the last non-LWS
index visited (fuel-driven as above). -/
def trimRightCut (s : GoStr) : Nat → Nat → Nat → Nat
  | 0, _, cut => cut
  | fuel + 1, i, cut =>
    if i < s.length then
      let c := lwsCheck s i
      if c.1 then trimRightCut s fuel c.2 cut
      else trimRightCut s fuel (i + 1) (i + 1)
    else cut

/-- lws.TrimRight. -/
def lwsTrimRight (s : GoStr) : GoStr := s.take (trimRightCut s (s.length + 1) 0 0)

/-- lws.Trim. -/
def lwsTrim (s : GoStr) : GoStr := lwsTrimRight (lwsTrimLeft s)

/-! ## Generic byte-list utilities mirroring Go bytes/strings helpers. -/

/-- bytes.Split / strings.Split with a one-byte separator: always returns at
least one (possibly empty) piece. -/
def splitOnByte (sep : Nat) : GoStr → List GoStr
  | [] => [[]]
  | c :: cs =>
    let r := splitOnByte sep cs
    if c == sep then [] :: r
    else (c :: r.headI) :: r.tail

/-- bytes.Join / strings.Join with a one-byte separator. -/
def joinBytes (sep : Nat) : List GoStr → GoStr
  | [] => []
  | [x] => x
  | x :: y :: rest => x ++ sep :: joinBytes sep (y :: rest)

/-- bytes.IndexByte: index of the first occurrence of b. -/
def idxOfByte (b : Nat) : GoStr → Option Nat
  | [] => none
  | c :: cs => if c == b then some 0 else (idxOfByte b cs).map (· + 1)

/-- bytes.Index for the two-byte CRLF pattern. -/
def idxOfCrlf : GoStr → Option Nat
  | [] => none
  | [_] => none
  | c :: d :: cs =>
    if c == 13 && d == 10 then some 0 else (idxOfCrlf (d :: cs)).map (· + 1)

/-- strings.SplitN with n = 2 on a one-byte separator: split at the first
occurrence only. -/
def splitN2 (sep : Nat) (s : GoStr) : List GoStr :=
  match idxOfByte sep s with
  | none => [s]
  | some i => [s.take i, s.drop (i + 1)]

/-- bytes.HasSuffix for the CRLF suffix. -/
def hasCrlfSuffix (s : GoStr) : Bool :=
  s.length ≥ 2 && at! s (s.length - 2) == 13 && at! s (s.length - 1) == 10

/-- bytes.Trim with cutset CRLF: strip all leading and trailing CR/LF bytes. -/
def trimCrlfCutset (s : GoStr) : GoStr :=
  ((s.dropWhile fun b => b == 13 || b == 10).reverse.dropWhile
    fun b => b == 13 || b == 10).reverse

/-- strings.ToLower restricted to ASCII (all source comparisons involve
ASCII-only tokens). -/
def toLowerAscii (s : GoStr) : GoStr :=
  s.map fun b => if 65 ≤ b && b ≤ 90 then b + 32 else b

/-! ## internal/constructs: grammar primitives (constructs.go).

Go ranges over a string iterate runes; on the ASCII inputs reachable in
this development runes and bytes coincide, so the loops are modelled
byte-wise. -/

/-- Per-byte loop of ValidateToken, checks in source order. -/
def validateTokenBytes : GoStr → Except String Unit
  | [] => .ok ()
  | c :: cs =>
    if isControl c then .error "token cannot contain control character"
    else if !isUSAscii c then .error "token cannot contain extended ascii characters"
    else if isTSpecial c then .error "token contains invalid symbol"
    else validateTokenBytes cs

/-- constructs.ValidateToken. -/
def validateToken (t : GoStr) : Except String Unit :=
  if t.isEmpty then .error "token cannot be empty" else validateTokenBytes t

/-- Index loop of ValidateText (fuel-driven; every iteration advances the
index by at least one, so fuel length + 1 suffices). -/
def validateTextGo (t : GoStr) : Nat → Nat → Except String Unit
  | 0, _ => .ok ()
  | fuel + 1, i =>
    if i < t.length then
      let c := lwsCheck t i
      if c.1 then validateTextGo t fuel c.2
      else if isControl (at! t i) then .error "not a valid sequence of text bytes"
      else validateTextGo t fuel (i + 1)
    else .ok ()

/-- constructs.ValidateText. -/
def validateText (t : GoStr) : Except String Unit := validateTextGo t (t.length + 1) 0

/-- Index loop of validateQdText (fuel-driven as for ValidateText). -/
def validateQdTextGo (t : GoStr) : Nat → Nat → Except String Unit
  | 0, _ => .ok ()
  | fuel + 1, i =>
    if i < t.length then
      let c := lwsCheck t i
      if c.1 then validateQdTextGo t fuel c.2
      else if !isQdText (at! t i) then .error "qdtext contains invalid character"
      else validateQdTextGo t fuel (i + 1)
    else .ok ()

/-- constructs.validateQdText. -/
def validateQdText (t : GoStr) : Except String Unit := validateQdTextGo t (t.length + 1) 0

/-- constructs.validateQuotedString. -/
def validateQuotedString (qs : GoStr) : Except String Unit :=
  if qs.length < 2 then .error "incomplete quote string"
  else if at! qs 0 != 34 || at! qs (qs.length - 1) != 34 then
    .error "quoted string must begin and end with a quote character"
  else validateQdText ((qs.drop 1).take (qs.length - 2))

/-- constructs.ParseQuotedString: the interior of a valid quoted string. -/
def parseQuotedString (qs : GoStr) : Except String GoStr :=
  match validateQuotedString qs with
  | .error _ => .error "not a quoted string"
  | .ok _ => .ok ((qs.drop 1).take (qs.length - 2))

/-- constructs.ParseUserQuotedString: re-quote bare qdtext, keep quoted
strings as given. -/
def parseUserQuotedString (s : GoStr) : Except String GoStr :=
  match validateQdText s with
  | .ok _ => .ok (34 :: s ++ [34])
  | .error _ =>
    match validateQuotedString s with
    | .ok _ => .ok s
    | .error _ => .error "malformed input"

/-- constructs.ParseWord: a token or a quoted string. -/
def parseWord (w : GoStr) : Except String GoStr :=
  match validateToken w with
  | .ok _ => .ok w
  | .error _ =>
    match parseQuotedString w with
    | .ok s => .ok s
    | .error _ => .error "not a word"

/-- Parenthesis-balance loop of ValidateComment. -/
def commentScore : GoStr → Int → Except String Unit
  | [], score => if score > 0 then .error "comment not properly closed" else .ok ()
  | c :: cs, score =>
    let score := if c == 40 then score + 1 else score
    let score := if c == 41 then score - 1 else score
    if score < 0 then .error "malformed comment" else commentScore cs score

/-- constructs.ValidateComment. -/
def validateComment (c : GoStr) : Except String Unit :=
  if c.length < 2 then .error "comment is incomplete"
  else if at! c 0 != 40 then .error "comment must begin with open parenthesis"
  else
    match validateText c with
    | .error _ => .error "comment contains invalid bytes"
    | .ok _ => commentScore c 0

/-- constructs.ValidateScheme. -/
def validateScheme (s : GoStr) : Except String Unit :=
  if s.isEmpty then .error "scheme cannot be empty"
  else if s.all fun c => isAlpha c || isNumeric c || c == 43 || c == 45 || c == 46 then .ok ()
  else .error "scheme contains invalid bytes"

/-! ## internal/rules: the comma rule extractor (rules.go). -/

/-- rules.Extract: split on comma; left-trim every element, right-trim every
non-last element. -/
def rulesExtract (s : GoStr) : List GoStr :=
  let parts := splitOnByte 44 s
  parts.mapIdx fun i part =>
    if i + 1 == parts.length then lwsTrimLeft part else lwsTrim part

/-! ## Numeric string conversions (strconv). -/

/-- strconv.ParseUint base 10, bit size 64. -/
def parseUint64 (s : GoStr) : Except String Nat :=
  if s.isEmpty then .error "invalid syntax"
  else if s.all fun b => 48 ≤ b && b ≤ 57 then
    let n := s.foldl (fun acc b => acc * 10 + (b - 48)) 0
    if n < 2 ^ 64 then .ok n else .error "value out of range"
  else .error "invalid syntax"

/-- Decimal rendering of a natural (strconv.FormatUint / %d). -/
def natToStr (n : Nat) : GoStr := str (Nat.repr n)

/-! ## Time: the fragment of Go time.Time / time.Parse / time.Format used by
the repository.

All instants the repository accepts or produces carry a zero-offset zone
(GMT or UTC), so an instant is modelled by its calendar fields plus the
zone name; no offset arithmetic is needed.  time.Parse matches weekday and
month names case-insensitively and does not check the weekday against the
date; both behaviours are preserved.  The zone item of a layout is
modelled as a run of at least two uppercase ASCII letters, which covers
every zone name whose parse outcome is observable through
constructs.ParseDate (only the name GMT is ever accepted there). -/

structure GoTime where
  year : Nat
  month : Nat
  day : Nat
  hour : Nat
  minute : Nat
  second : Nat
  zone : String
deriving Repr, DecidableEq

/-- Zero value of time.Time: January 1, year 1, 00:00:00 UTC. -/
def zeroTime : GoTime := ⟨1, 1, 1, 0, 0, 0, "UTC"⟩

/-- time.Time.IsZero (zone names carried here all denote offset 0). -/
def GoTime.isZero (t : GoTime) : Bool :=
  t.year == 1 && t.month == 1 && t.day == 1 &&
  t.hour == 0 && t.minute == 0 && t.second == 0

def shortDayNames : List String := ["Sun", "Mon", "Tue", "Wed", "Thu", "Fri", "Sat"]

def longDayNames : List String :=
  ["Sunday", "Monday", "Tuesday", "Wednesday", "Thursday", "Friday", "Saturday"]

def shortMonthNames : List String :=
  ["Jan", "Feb", "Mar", "Apr", "May", "Jun", "Jul", "Aug", "Sep", "Oct", "Nov", "Dec"]

/-- Consume one expected byte. -/
def pByte (b : Nat) : GoStr → Except String GoStr
  | c :: cs => if c == b then .ok cs else .error "cannot parse"
  | [] => .error "cannot parse"

/-- Consume an expected literal. -/
def pLit (lit : GoStr) (s : GoStr) : Except String GoStr :=
  if lit.isPrefixOf s then .ok (s.drop lit.length) else .error "cannot parse"

/-- Exactly two decimal digits (a fixed-width layout number). -/
def pNum2 : GoStr → Except String (Nat × GoStr)
  | a :: b :: cs =>
    if isNumeric a && isNumeric b then .ok ((a - 48) * 10 + (b - 48), cs)
    else .error "cannot parse"
  | _ => .error "cannot parse"

/-- One or two decimal digits (a non-fixed layout number). -/
def pNum1or2 : GoStr → Except String (Nat × GoStr)
  | a :: b :: cs =>
    if isNumeric a then
      if isNumeric b then .ok ((a - 48) * 10 + (b - 48), cs) else .ok (a - 48, b :: cs)
    else .error "cannot parse"
  | [a] => if isNumeric a then .ok (a - 48, []) else .error "cannot parse"
  | [] => .error "cannot parse"

/-- Exactly four decimal digits (the 2006 layout year). -/
def pNum4 (s : GoStr) : Except String (Nat × GoStr) := do
  let (hi, s) ← pNum2 s
  let (lo, s) ← pNum2 s
  .ok (hi * 100 + lo, s)

/-- Case-insensitive match of one of the given names; yields its index. -/
def matchName (names : List String) (s : GoStr) : Except String (Nat × GoStr) :=
  match names.enum.find? fun p => (toLowerAscii (str p.2)).isPrefixOf (toLowerAscii s) with
  | some (i, nm) => .ok (i, s.drop (str nm).length)
  | none => .error "cannot parse"

/-- Zone item of a layout: a run of at least two uppercase ASCII letters. -/
def pZone (s : GoStr) : Except String (String × GoStr) :=
  let run := s.takeWhile fun b => 65 ≤ b && b ≤ 90
  if run.length < 2 then .error "cannot parse"
  else .ok (String.mk (run.map Char.ofNat), s.drop run.length)

def isLeapYear (y : Nat) : Bool := (y % 4 == 0 && y % 100 != 0) || y % 400 == 0

def daysInMonth (year month : Nat) : Nat :=
  match month with
  | 1 => 31 | 2 => if isLeapYear year then 29 else 28
  | 3 => 31 | 4 => 30 | 5 => 31 | 6 => 30 | 7 => 31
  | 8 => 31 | 9 => 30 | 10 => 31 | 11 => 30 | 12 => 31
  | _ => 0

/-- Range validation applied by time.Parse to the parsed fields. -/
def mkValidTime (year month day hour minute second : Nat) (zone : String) :
    Except String GoTime :=
  if day < 1 || day > daysInMonth year month then .error "day out of range"
  else if hour > 23 then .error "hour out of range"
  else if minute > 59 then .error "minute out of range"
  else if second > 59 then .error "second out of range"
  else .ok ⟨year, month, day, hour, minute, second, zone⟩

/-- Shared clock part 15:04:05 of the three layouts. -/
def pClock (s : GoStr) : Except String ((Nat × Nat × Nat) × GoStr) := do
  let (h, s) ← pNum2 s
  let s ← pByte 58 s
  let (mi, s) ← pNum2 s
  let s ← pByte 58 s
  let (sec, s) ← pNum2 s
  .ok ((h, mi, sec), s)

/-- time.Parse with layout time.RFC1123 (Mon, 02 Jan 2006 15:04:05 MST). -/
def parseRFC1123 (s : GoStr) : Except String GoTime := do
  let (_, s) ← matchName shortDayNames s
  let s ← pLit (str ", ") s
  let (day, s) ← pNum2 s
  let s ← pByte 32 s
  let (month, s) ← matchName shortMonthNames s
  let s ← pByte 32 s
  let (year, s) ← pNum4 s
  let s ← pByte 32 s
  let (clock, s) ← pClock s
  let s ← pByte 32 s
  let (zone, s) ← pZone s
  if !s.isEmpty then .error "extra text"
  else mkValidTime year (month + 1) day clock.1 clock.2.1 clock.2.2 zone

/-- time.Parse with layout time.RFC850 (Monday, 02-Jan-06 15:04:05 MST);
two-digit years 69..99 map to 19xx, others to 20xx. -/
def parseRFC850 (s : GoStr) : Except String GoTime := do
  let (_, s) ← matchName longDayNames s
  let s ← pLit (str ", ") s
  let (day, s) ← pNum2 s
  let s ← pByte 45 s
  let (month, s) ← matchName shortMonthNames s
  let s ← pByte 45 s
  let (yy, s) ← pNum2 s
  let year := if yy ≥ 69 then yy + 1900 else yy + 2000
  let s ← pByte 32 s
  let (clock, s) ← pClock s
  let s ← pByte 32 s
  let (zone, s) ← pZone s
  if !s.isEmpty then .error "extra text"
  else mkValidTime year (month + 1) day clock.1 clock.2.1 clock.2.2 zone

/-- time.Parse with layout time.ANSIC (Mon Jan _2 15:04:05 2006); the day may
be space-padded; the result is in UTC. -/
def parseANSIC (s : GoStr) : Except String GoTime := do
  let (_, s) ← matchName shortDayNames s
  let s ← pByte 32 s
  let (month, s) ← matchName shortMonthNames s
  let s ← pByte 32 s
  let s := if at! s 0 == 32 && s.length > 0 then s.drop 1 else s
  let (day, s) ← pNum1or2 s
  let s ← pByte 32 s
  let (clock, s) ← pClock s
  let s ← pByte 32 s
  let (year, s) ← pNum4 s
  if !s.isEmpty then .error "extra text"
  else mkValidTime year (month + 1) day clock.1 clock.2.1 clock.2.2 "UTC"

/-- constructs.ParseDate: try RFC850, RFC1123 and ANSIC in order (a later
success overwrites an earlier one); ANSIC results are moved into the GMT
zone; then reject the zero instant and any zone other than GMT. -/
def parseDate (d : GoStr) : Except String GoTime :=
  let date0 := zeroTime
  let date1 := match parseRFC850 d with | .ok t => t | .error _ => date0
  let date2 := match parseRFC1123 d with | .ok t => t | .error _ => date1
  let date3 := match parseANSIC d with | .ok t => { t with zone := "GMT" } | .error _ => date2
  if date3.isZero then .error "could not parse date"
  else if date3.zone != "GMT" then .error "timezone must be GMT"
  else .ok date3

/-! ### time.Format with layout time.RFC1123 (used by MessageTime.marshal). -/

/-- Days in the proleptic Gregorian calendar strictly before January 1 of
the given year (year ≥ 1). -/
def daysBeforeYear (y : Nat) : Nat :=
  365 * (y - 1) + (y - 1) / 4 - (y - 1) / 100 + (y - 1) / 400

def cumDaysBeforeMonth (m : Nat) : Nat :=
  [0, 31, 59, 90, 120, 151, 181, 212, 243, 273, 304, 334].getD (m - 1) 0

/-- Day index of a date, with 0001-01-01 as day 0. -/
def dayNumber (t : GoTime) : Nat :=
  daysBeforeYear t.year + cumDaysBeforeMonth t.month +
    (if t.month > 2 && isLeapYear t.year then 1 else 0) + (t.day - 1)

/-- Weekday of a date, 0 = Sunday (0001-01-01 was a Monday). -/
def weekdayIdx (t : GoTime) : Nat := (dayNumber t + 1) % 7

def pad2 (n : Nat) : String := if n < 10 then "0" ++ Nat.repr n else Nat.repr n

def pad4 (n : Nat) : String :=
  if n < 10 then "000" ++ Nat.repr n
  else if n < 100 then "00" ++ Nat.repr n
  else if n < 1000 then "0" ++ Nat.repr n
  else Nat.repr n

/-- time.Time.Format with layout time.RFC1123. -/
def rfc1123Render (t : GoTime) : GoStr :=
  str (shortDayNames.getD (weekdayIdx t) "" ++ ", " ++ pad2 t.day ++ " " ++
    shortMonthNames.getD (t.month - 1) "" ++ " " ++ pad4 t.year ++ " " ++
    pad2 t.hour ++ ":" ++ pad2 t.minute ++ ":" ++ pad2 t.second ++ " " ++ t.zone)

/-! ## Errors (error.go and the io / fmt errors crossing parseRequest). -/

/-- Dynamic type of a Go error as observed by the connection handler:
ClientError, ServerError, a plain fmt.Errorf error, or one of the io
sentinel errors returned by bufio / io.ReadFull.  Error message texts are
kept approximately (they are never compared by the code). -/
inductive GoErr where
  | clientError (msg : String)
  | serverError (msg : String)
  | plainError (msg : String)
  | ioEOF
  | ioUnexpectedEOF
deriving Repr, DecidableEq

def GoErr.isClientError : GoErr → Bool
  | .clientError _ => true
  | _ => false

/-! ## URI parser (uri.go). -/

/-- Decode loop shared by the uri sub-parsers: a literal byte or a %HH
escape per step; the decoded byte must satisfy pred.  Escape errors are
ClientError values (unescapeSequence), class errors are the given error
(the Go loops advance the index by 3 over an escape and 1 otherwise). -/
def decodeBytes (pred : Nat → Bool) (predErr : GoErr) : GoStr → Except GoErr GoStr
  | [] => .ok []
  | c :: rest =>
    if c == 37 then
      match rest with
      | [] => .error (.clientError "truncated escape sequence")
      | [h1] =>
        match hexValue h1 with
        | .error _ => .error (.clientError "malformed escape sequence")
        | .ok _ => .error (.clientError "truncated escape sequence")
      | h1 :: h2 :: rest2 =>
        match hexValue h1 with
        | .error _ => .error (.clientError "malformed escape sequence")
        | .ok v1 =>
          match hexValue h2 with
          | .error _ => .error (.clientError "malformed escape sequence")
          | .ok v2 =>
            let b := v1 * 16 + v2
            if pred b then (decodeBytes pred predErr rest2).map (b :: ·) else .error predErr
    else if pred c then (decodeBytes pred predErr rest).map (c :: ·)
    else .error predErr

/-- Decode every piece in order, stopping at the first error (the
per-piece loops of parseUriPath and parseUriParams). -/
def exceptMapM (f : GoStr → Except GoErr GoStr) : List GoStr → Except GoErr (List GoStr)
  | [] => .ok []
  | x :: rest => do
    let y ← f x
    let ys ← exceptMapM f rest
    .ok (y :: ys)

/-- parseUriPath: split on /, reject an empty first segment when there is
more than one, percent-decode each segment checking PCHAR, rejoin. -/
def parseUriPath (data : GoStr) : Except GoErr GoStr :=
  let unescaped := splitOnByte 47 data
  if unescaped.length > 1 && unescaped.headI.isEmpty then
    .error (.plainError "first segment cannot be empty")
  else do
    let segments ← exceptMapM
      (decodeBytes isPChar (.plainError "path contains invalid byte")) unescaped
    .ok (joinBytes 47 segments)

/-- parseUriParams: split on ; and percent-decode each piece checking
PCHAR or /.  Empty input yields no params. -/
def parseUriParams (data : GoStr) : Except GoErr (List GoStr) :=
  if data.isEmpty then .ok []
  else exceptMapM
    (decodeBytes (fun b => isPChar b || b == 47) (.plainError "params contains invalid byte"))
    (splitOnByte 59 data)

/-- parseUriQuery: percent-decode checking reserved or unreserved. -/
def parseUriQuery (data : GoStr) : Except GoErr GoStr :=
  decodeBytes (fun b => isReserved b || isUnreserved b)
    (.plainError "queries contain invalid byte") data

/-- parseRelPathUri: locate the first ; and the first ?, cut path, params
and query slices as in the source, and run the three sub-parsers; every
sub-parser error is wrapped in a ClientError. -/
def parseRelPathUri (data : GoStr) : Except GoErr (GoStr × List GoStr × GoStr) := do
  let queryIdx0 := idxOfByte 63 data
  let querySlice := match queryIdx0 with | some q => data.drop (q + 1) | none => []
  let queryIndex := match queryIdx0 with | some q => q | none => data.length
  let paramsIdx0 := idxOfByte 59 data
  let paramsSlice :=
    match paramsIdx0 with
    | some p => if p < queryIndex then (data.take queryIndex).drop (p + 1) else []
    | none => []
  let paramsIndex :=
    match paramsIdx0 with
    | some p => if p < queryIndex then p else queryIndex
    | none => queryIndex
  let path ←
    match parseUriPath (data.take paramsIndex) with
    | .ok p => pure p
    | .error _ => throw (GoErr.clientError "Invalid request uri path")
  let params ←
    match parseUriParams paramsSlice with
    | .ok p => pure p
    | .error _ => throw (GoErr.clientError "Invalid request uri params")
  let query ←
    match parseUriQuery querySlice with
    | .ok q => pure q
    | .error _ => throw (GoErr.clientError "Invalid request uri queries")
  .ok (path, params, query)

/-- parseAbsUri: require a leading /, parse the rest as a rel_path, put the
/ back on the front of the path. -/
def parseAbsUri (data : GoStr) : Except GoErr (GoStr × List GoStr × GoStr) :=
  if data.isEmpty || at! data 0 != 47 then .error (.plainError "abs path must begin with a slash")
  else
    match parseRelPathUri (data.drop 1) with
    | .ok (p, prms, q) => .ok (47 :: p, prms, q)
    | .error e => .error e

/-- RelativeUri (uri.go). -/
structure RelativeUri where
  netLoc : GoStr
  path : GoStr
  params : List GoStr
  query : GoStr
deriving Repr, DecidableEq

inductive PathForm where
  | netPath
  | absPath
  | relPath
deriving Repr, DecidableEq

/-- RelativeUri.getPathForm. -/
def RelativeUri.getPathForm (u : RelativeUri) : PathForm :=
  if u.netLoc.length > 0 then .netPath
  else if u.path.length == 0 || at! u.path 0 != 47 then .relPath
  else .absPath

/-- parseRelativeUri: optional //netloc prefix (PCHAR, ; and ? bytes), then
an abs_path when the netloc branch ran or the next byte is /, else a
rel_path. -/
def parseRelativeUri (data : GoStr) : Except GoErr RelativeUri :=
  let hasNetLoc := data.length ≥ 2 && at! data 0 == 47 && at! data 1 == 47
  let netLoc :=
    if hasNetLoc then (data.drop 2).takeWhile fun b => isPChar b || b == 59 || b == 63
    else []
  let start := if hasNetLoc then 2 + netLoc.length else 0
  if start == data.length then .ok ⟨netLoc, [], [], []⟩
  else
    match
      if start > 0 || at! data start == 47 then parseAbsUri (data.drop start)
      else parseRelPathUri data with
    | .ok (p, prms, q) => .ok ⟨netLoc, p, prms, q⟩
    | .error e => .error e

/-- AbsoluteUri (uri.go). -/
structure AbsoluteUri where
  scheme : GoStr
  path : GoStr
deriving Repr, DecidableEq

/-- validateStartsWithScheme. -/
def validateStartsWithScheme (data : GoStr) : Except GoErr Unit :=
  match idxOfByte 58 data with
  | none => .error (.plainError "could not determine schema")
  | some ci =>
    match validateScheme (data.take ci) with
    | .ok _ => .ok ()
    | .error e => .error (.plainError e)

/-- parseAbsoluteUri: scheme up to the first colon, then a percent-decoded
path whose bytes must be reserved or unreserved. -/
def parseAbsoluteUri (data : GoStr) : Except GoErr AbsoluteUri := do
  let _ ← validateStartsWithScheme data
  let ci := (idxOfByte 58 data).getD 0
  let scheme := data.take ci
  let remaining := data.drop (ci + 1)
  let path ← decodeBytes (fun b => isReserved b || isUnreserved b)
    (.plainError "queries contain invalid byte") remaining
  .ok ⟨scheme, path⟩

/-- Uri interface value: an AbsoluteUri or a RelativeUri. -/
inductive GoUri where
  | abs (u : AbsoluteUri)
  | rel (u : RelativeUri)
deriving Repr, DecidableEq

/-- parseUri: dispatch on whether the data starts with a scheme. -/
def parseUri (data : GoStr) : Except GoErr GoUri :=
  match validateStartsWithScheme data with
  | .ok _ => (parseAbsoluteUri data).map .abs
  | .error _ => (parseRelativeUri data).map .rel

/-! ### URI marshalling (marshal.go, src/unnamed/part_013). -/

/-- AbsoluteUri.marshal. -/
def AbsoluteUri.marshal (u : AbsoluteUri) : GoStr := u.scheme ++ 58 :: u.path

/-- RelativeUri.marshal. -/
def RelativeUri.marshal (u : RelativeUri) : GoStr :=
  (if u.netLoc.length > 0 then str "//" ++ u.netLoc else []) ++
  u.path ++
  (if u.params.length > 0 then 59 :: joinBytes 59 u.params else []) ++
  (if u.query.length > 0 then 63 :: u.query else [])

/-- Uri.marshal on an interface value. -/
def GoUri.marshal : GoUri → GoStr
  | .abs u => u.marshal
  | .rel u => u.marshal

/-! ## Go maps.

A Go map is nil or a collection of key/value pairs; writing to a nil map
faults (panics), reading from one yields the zero value.  A non-nil map is
modelled as an association list without duplicate keys (inserts overwrite
in place); iteration order never matters below because every map is either
compared as a whole or iterated in sorted key order. -/

abbrev GoMap (α : Type) := Option (List (GoStr × α))

/-- Insert into the underlying association list, overwriting an existing
binding for the key in place. -/
def assocInsert (k : GoStr) (v : α) : List (GoStr × α) → List (GoStr × α)
  | [] => [(k, v)]
  | (k2, v2) :: rest =>
    if k2 == k then (k, v) :: rest else (k2, v2) :: assocInsert k v rest

/-- Map write m[k] = v; faults (none) when the map is nil. -/
def mapWrite (m : GoMap α) (k : GoStr) (v : α) : Option (GoMap α) :=
  match m with
  | none => none
  | some l => some (some (assocInsert k v l))

/-- Map write after a make-if-nil guard (the request-header setters). -/
def mapWriteInit (m : GoMap α) (k : GoStr) (v : α) : GoMap α :=
  some (assocInsert k v (m.getD []))

/-- len of a map (0 for nil). -/
def mapLen (m : GoMap α) : Nat := (m.getD []).length

/-- Keys of a map sorted lexicographically (sort.Strings in getSortedKeys). -/
def mapSortedKeys (m : GoMap α) : List GoStr :=
  ((m.getD []).map Prod.fst).mergeSort fun a b => decide (a ≤ b)

/-- Lookup (the zero-value read is never relied on below). -/
def mapGet (m : GoMap α) (k : GoStr) : Option α :=
  (m.getD []).lookup k

/-! ## Request header field types and sub-grammars (parse.go, message.go). -/

/-- MessageTime (message.go). -/
structure MessageTime where
  date : GoTime
deriving Repr, DecidableEq

def zeroMessageTime : MessageTime := ⟨zeroTime⟩

/-- PragmaDirectives (message.go): a flag set and key-to-word options. -/
structure PragmaDirectives where
  flags : GoMap Bool
  options : GoMap GoStr
deriving Repr, DecidableEq

/-- parsePragmaDirectives: comma rules; each a token, optionally = word;
no-cache must not carry a value. -/
def parsePragmaDirectives (data : GoStr) : Except String PragmaDirectives := do
  let parts := rulesExtract data
  let init : PragmaDirectives := ⟨some [], some []⟩
  parts.foldlM (fun directives part => do
    let values := splitN2 61 part
    match validateToken values.headI with
    | .error _ => throw "pragma directive must be prepended with token"
    | .ok _ =>
      if values.length == 2 then
        let key := values.headI
        let value := values.getD 1 []
        if key == str "no-cache" then
          throw "pragma directive no-cache cannot have a value"
        else
          match parseWord value with
          | .error _ => throw "pragma directive value must be a word"
          | .ok w => pure { directives with options := mapWriteInit directives.options key w }
      else
        pure { directives with flags := mapWriteInit directives.flags part true }) init

/-- AuthorizationCredentials (request.go types). -/
structure AuthorizationCredentials where
  scheme : GoStr
  parameters : GoMap GoStr
deriving Repr, DecidableEq

/-- Index loop of splitAuthorizationCredentials: scan to the first TSPECIAL
byte, absorbing CRLF-folds (fuel-driven; each step advances the index). -/
def splitAuthLoop (data : GoStr) : Nat → Nat → Nat
  | 0, i => i
  | fuel + 1, i =>
    if i < data.length && !isTSpecial (at! data i) then
      let n := lwsNewLine data i
      if n.1 then splitAuthLoop data fuel n.2.1 else splitAuthLoop data fuel (i + 1)
    else i

/-- splitAuthorizationCredentials. -/
def splitAuthorizationCredentials (data : GoStr) : GoStr × GoStr :=
  let i := splitAuthLoop data (data.length + 1) 0
  (data.take i, data.drop (min data.length (i + 1)))

/-- Value of a base64 alphabet byte. -/
def base64Val (b : Nat) : Option Nat :=
  if 65 ≤ b && b ≤ 90 then some (b - 65)
  else if 97 ≤ b && b ≤ 122 then some (b - 97 + 26)
  else if 48 ≤ b && b ≤ 57 then some (b - 48 + 52)
  else if b == 43 then some 62
  else if b == 47 then some 63
  else none

/-- base64.StdEncoding.DecodeString: standard alphabet, padded groups of 4. -/
def base64Decode : GoStr → Except String GoStr
  | [] => .ok []
  | a :: b :: c :: d :: rest =>
    match base64Val a, base64Val b with
    | some va, some vb =>
      if c == 61 && d == 61 && rest.isEmpty then .ok [va * 4 + vb / 16]
      else
        match base64Val c with
        | some vc =>
          if d == 61 && rest.isEmpty then .ok [va * 4 + vb / 16, (vb % 16) * 16 + vc / 4]
          else
            match base64Val d with
            | some vd =>
              (base64Decode rest).map
                ([va * 4 + vb / 16, (vb % 16) * 16 + vc / 4, (vc % 4) * 64 + vd] ++ ·)
            | none => .error "illegal base64 data"
        | none => .error "illegal base64 data"
    | _, _ => .error "illegal base64 data"
  | _ => .error "illegal base64 data"

/-- setBasicSchemeParams: base64 userid:password; userid must be a token or
empty, password must be text. -/
def setBasicSchemeParams (ac : AuthorizationCredentials) (data : GoStr) :
    Except String AuthorizationCredentials := do
  let decoded ←
    match base64Decode data with
    | .error _ => throw "invalid credentials"
    | .ok d => pure d
  let parts := splitN2 58 decoded
  if parts.length != 2 then throw "invalid credentials"
  else
    let userid := parts.headI
    let password := parts.getD 1 []
    match validateToken userid with
    | .error _ =>
      if userid.length > 0 then throw "invalid credentials"
      else checkPassword userid password
    | .ok _ => checkPassword userid password
where
  checkPassword (userid password : GoStr) : Except String AuthorizationCredentials :=
    match validateText password with
    | .error _ => .error "invalid credentials"
    | .ok _ =>
      .ok { ac with
        parameters := some [(str "userid", userid), (str "password", password)] }

/-- AuthorizationCredentials.setParams: Basic credentials, or a comma list
of name=quoted-string parameters. -/
def setAuthParams (ac : AuthorizationCredentials) (data : GoStr) :
    Except String AuthorizationCredentials := do
  if ac.scheme == str "Basic" then setBasicSchemeParams ac data
  else
    let params ← (rulesExtract data).foldlM
      (fun params param => do
        let parts := splitN2 61 param
        if parts.length != 2 then throw "invalid auth parameter"
        else
          let key := parts.headI
          match validateToken key with
          | .error _ => throw "invalid auth parameter"
          | .ok _ =>
            match parseQuotedString (parts.getD 1 []) with
            | .error _ => throw "invalid auth parameter"
            | .ok val => pure (assocInsert key val params))
      ([] : List (GoStr × GoStr))
    .ok { ac with parameters := some params }

/-- parseAuthorizationCredentials. -/
def parseAuthorizationCredentials (data : GoStr) :
    Except String AuthorizationCredentials := do
  let parts := splitAuthorizationCredentials data
  let scheme := lwsTrimRight parts.1
  match validateToken scheme with
  | .error _ => throw "malformed Authorization scheme"
  | .ok _ => setAuthParams ⟨scheme, none⟩ parts.2

/-- ProductVersion (request.go types). -/
structure ProductVersion where
  product : GoStr
  version : GoStr
deriving Repr, DecidableEq

/-- parseProductVersion: name with at most one / and a token on each side. -/
def parseProductVersion (data : GoStr) : Except String ProductVersion := do
  let parts := splitOnByte 47 data
  if parts.length > 2 then throw "product token can only contain up to 1 forward slash"
  else
    match validateToken parts.headI with
    | .error _ => throw "invalid product token"
    | .ok _ =>
      if parts.length == 2 then
        match validateToken (parts.getD 1 []) with
        | .error _ => throw "invalid product token"
        | .ok _ => pure ⟨parts.headI, parts.getD 1 []⟩
      else pure ⟨parts.headI, []⟩

/-- UserAgent (request.go types). -/
structure UserAgent where
  comments : List GoStr
  products : List ProductVersion
deriving Repr, DecidableEq

/-- Parenthesis-depth loop of extractComment (fuel-driven index loop). -/
def commentEnd (data : GoStr) : Nat → Nat → Int → Nat × Int
  | 0, i, score => (i, score)
  | fuel + 1, i, score =>
    if i < data.length && score > 0 then
      let score := if at! data i == 40 then score + 1 else score
      let score := if at! data i == 41 then score - 1 else score
      commentEnd data fuel (i + 1) score
    else (i, score)

/-- extractComment: a balanced ( ... ) slice starting at start, then skip
trailing LWS; yields the comment and the next index. -/
def extractComment (data : GoStr) (start : Nat) : Except String (GoStr × Nat) :=
  if at! data start != 40 then .error "comment must begin with open parenthesis"
  else
    let (i, score) := commentEnd data (data.length + 1) (start + 1) 1
    if score > 0 then .error "comment not properly closed"
    else
      let comment := (data.take i).drop start
      .ok (comment, trimLeftPos data (data.length + 1) i)

/-- Scan loop of extractProductVersion: up to the next ( or LWS. -/
def productEnd (data : GoStr) : Nat → Nat → Nat
  | 0, i => i
  | fuel + 1, i =>
    if i < data.length && at! data i != 40 && !(lwsCheck data i).1 then
      productEnd data fuel (i + 1)
    else i

/-- extractProductVersion: the product token slice and the index past it and
any following LWS. -/
def extractProductVersion (data : GoStr) (start : Nat) : GoStr × Nat :=
  let i := productEnd data (data.length + 1) start
  ((data.take i).drop start, trimLeftPos data (data.length + 1) i)

/-- Item loop of setUserAgent (fuel-driven; every successful step advances
the index).  Fuel exhaustion is unreachable. -/
def userAgentLoop (data : GoStr) : Nat → Nat → UserAgent → Except String UserAgent
  | 0, _, _ => .error "unreachable fuel exhaustion"
  | fuel + 1, i, ua =>
    if i < data.length then
      if at! data i == 40 then do
        let (c, next) ←
          match extractComment data i with
          | .error e => throw ("Invalid User-Agent header: bad comment - " ++ e)
          | .ok r => pure r
        match validateComment c with
        | .error e => throw ("Invalid User-Agent header: bad comment - " ++ e)
        | .ok _ => userAgentLoop data fuel next { ua with comments := ua.comments ++ [c] }
      else do
        let (token, next) := extractProductVersion data i
        match parseProductVersion token with
        | .error e => throw ("Invalid User-Agent header: bad product token - " ++ e)
        | .ok product =>
          userAgentLoop data fuel next { ua with products := ua.products ++ [product] }
    else .ok ua

/-- setUserAgent body: left-trim then alternate comments and product tokens. -/
def parseUserAgent (data : GoStr) : Except String UserAgent :=
  let data := lwsTrimLeft data
  userAgentLoop data (data.length + 1) 0 ⟨[], []⟩

/-- ContentType (message.go). -/
structure ContentType where
  typ : GoStr
  subtype : GoStr
  parameters : GoMap GoStr
deriving Repr, DecidableEq

/-- Parameter loop of parseContentTypeParameters (fuel-driven index loop
mirroring the source; each outer iteration advances the index). -/
def ctParamsLoop (data : GoStr) : Nat → Nat → List (GoStr × GoStr) →
    Except String (List (GoStr × GoStr))
  | 0, _, acc => .ok acc
  | fuel + 1, i, acc =>
    if i < data.length then
      let i := trimLeftPos data (data.length + 1) i
      let attr := (data.drop i).takeWhile fun b => b != 61
      let i := i + attr.length
      match validateToken attr with
      | .error _ => .error "parameter attribute must be a token"
      | .ok _ =>
        let i := i + 1
        if i ≥ data.length then .error "parameter has no value"
        else if at! data i == 34 then
          let v0 := ((data.drop (i + 1)).takeWhile fun b => b != 34)
          let iAfter := i + 1 + v0.length
          let v := if iAfter < data.length then 34 :: v0 ++ [34] else 34 :: v0
          let iAfter := if iAfter < data.length then iAfter + 1 else iAfter
          match parseQuotedString v with
          | .error e => .error e
          | .ok value =>
            let iNext := trimLeftPos data (data.length + 1) iAfter
            ctParamsLoop data fuel (iNext + 1) (assocInsert attr value acc)
        else
          let v := (data.drop i).takeWhile fun b => b != 59
          let value := lwsTrimRight v
          match validateToken value with
          | .error e => .error e
          | .ok _ => ctParamsLoop data fuel (i + v.length + 1) (assocInsert attr value acc)
    else .ok acc

/-- parseContentTypeParameters. -/
def parseContentTypeParameters (data : GoStr) : Except String (List (GoStr × GoStr)) :=
  if data.length == 0 then .error "parameter cannot be empty"
  else ctParamsLoop data (data.length + 1) 0 []

/-- parseContentType: type / subtype, then optional ; parameters. -/
def parseContentType (data : GoStr) : Except String ContentType := do
  let parts := splitN2 59 data
  let mediaType := splitOnByte 47 (lwsTrim parts.headI)
  if mediaType.length != 2 then throw "malformed media type header"
  else
    match validateToken mediaType.headI with
    | .error _ => throw "malformed media type"
    | .ok _ =>
      match validateToken (mediaType.getD 1 []) with
      | .error _ => throw "malformed media subtype"
      | .ok _ =>
        if parts.length == 2 then do
          let params ← parseContentTypeParameters (parts.getD 1 [])
          pure ⟨mediaType.headI, mediaType.getD 1 [], some params⟩
        else pure ⟨mediaType.headI, mediaType.getD 1 [], none⟩

/-- mail.Address (stdlib type used by the From header). -/
structure GoMailAddress where
  name : GoStr
  address : GoStr
deriving Repr, DecidableEq

/-- Models the external net/mail.ParseAddress (standard library, not
repository code): accepts the display <local@domain> and bare local@domain
forms.  No claim depends on this model. -/
def mailParseAddress (s : GoStr) : Except String GoMailAddress :=
  match idxOfByte 60 s with
  | some lt =>
    (match idxOfByte 62 s with
    | some gt =>
      if lt < gt && gt == s.length - 1 then
        let addr := (s.take gt).drop (lt + 1)
        if (idxOfByte 64 addr).isSome then .ok ⟨lwsTrim (s.take lt), addr⟩
        else .error "mail: missing at sign"
      else .error "mail: malformed address"
    | none => .error "mail: unclosed angle bracket")
  | none =>
    if (idxOfByte 64 s).isSome && !s.isEmpty then .ok ⟨[], s⟩
    else .error "mail: invalid address"

/-! ## LZW decoding: a faithful port of the Go standard library decoder
(compress/lzw, NewReader with litWidth 8) for both bit orders.

The Go reader flushes its output in chunks of at most 4096 bytes;
io.ReadAll concatenates them, so the chunking is not observable and is
dropped here.  The prefix/suffix code tables are 4096-entry arrays as in
the Go source. -/

inductive BitOrder where
  | lsb
  | msb
deriving Repr, DecidableEq

/-- decoderInvalidCode. -/
def lzwInvalid : Nat := 65535

structure LzwState where
  input : GoStr
  bits : Nat
  nBits : Nat
  width : Nat
  hi : Nat
  overflow : Nat
  last : Nat
  pref : Array Nat
  suff : Array Nat

/-- Reader.readLSB: fill the bit buffer from the low end, take the low
width bits (fuel-driven; at most two bytes are ever loaded per code). -/
def readLSB : Nat → LzwState → Option (Nat × LzwState)
  | 0, _ => none
  | fuel + 1, st =>
    if st.nBits ≥ st.width then
      some (st.bits % 2 ^ st.width,
        { st with bits := st.bits / 2 ^ st.width, nBits := st.nBits - st.width })
    else
      match st.input with
      | [] => none
      | b :: rest =>
        readLSB fuel { st with
          input := rest
          bits := st.bits + b * 2 ^ st.nBits
          nBits := st.nBits + 8 }

/-- Reader.readMSB: a 32-bit register filled from the top, take the top
width bits (the left shift truncates to 32 bits as for a Go uint32). -/
def readMSB : Nat → LzwState → Option (Nat × LzwState)
  | 0, _ => none
  | fuel + 1, st =>
    if st.nBits ≥ st.width then
      some (st.bits / 2 ^ (32 - st.width),
        { st with bits := st.bits * 2 ^ st.width % 2 ^ 32, nBits := st.nBits - st.width })
    else
      match st.input with
      | [] => none
      | b :: rest =>
        readMSB fuel { st with
          input := rest
          bits := st.bits + b * 2 ^ (24 - st.nBits)
          nBits := st.nBits + 8 }

def readCode (order : BitOrder) (st : LzwState) : Option (Nat × LzwState) :=
  match order with
  | .lsb => readLSB (st.input.length + 1) st
  | .msb => readMSB (st.input.length + 1) st

/-- Walk the prefix chain of a code down to its head literal (the chain is
strictly decreasing in the Go tables; fuel 4096 covers every chain). -/
def chainHead (pref : Array Nat) : Nat → Nat → Nat
  | 0, c => c % 256
  | fuel + 1, c => if c < 256 then c else chainHead pref fuel (pref.getD c 0)

/-- Expand a code through the suffix chain (the backwards-filling loop of
the Go decoder). -/
def chainExpand (pref suff : Array Nat) : Nat → Nat → GoStr
  | 0, c => [c % 256]
  | fuel + 1, c =>
    if c < 256 then [c]
    else chainExpand pref suff fuel (pref.getD c 0) ++ [suff.getD c 0]

/-- Post-iteration bookkeeping: remember the code, grow hi, widen or cap
the code width at 12 bits. -/
def lzwBump (st : LzwState) (code : Nat) : LzwState :=
  let st := { st with last := code, hi := st.hi + 1 }
  if st.hi ≥ st.overflow then
    if st.width == 12 then { st with last := lzwInvalid, hi := st.hi - 1 }
    else { st with width := st.width + 1, overflow := 2 ^ (st.width + 1) }
  else st

/-- Main decode loop of the Go lzw Reader (fuel-driven; every iteration
consumes at least 9 bits of input, so fuel length + 2 suffices). -/
def lzwLoop (order : BitOrder) : Nat → LzwState → GoStr → Except String GoStr
  | 0, _, _ => .error "unreachable fuel exhaustion"
  | fuel + 1, st, out =>
    match readCode order st with
    | none => .error "unexpected EOF"
    | some (code, st) =>
      if code < 256 then
        let st :=
          if st.last != lzwInvalid then
            { st with suff := st.suff.set! st.hi code, pref := st.pref.set! st.hi st.last }
          else st
        lzwLoop order fuel (lzwBump st code) (out ++ [code])
      else if code == 256 then
        lzwLoop order fuel
          { st with width := 9, hi := 257, overflow := 512, last := lzwInvalid } out
      else if code == 257 then .ok out
      else if code ≤ st.hi then
        let expansion :=
          if code == st.hi && st.last != lzwInvalid then
            chainExpand st.pref st.suff 4096 st.last ++ [chainHead st.pref 4096 st.last]
          else chainExpand st.pref st.suff 4096 code
        let st :=
          if st.last != lzwInvalid then
            { st with suff := st.suff.set! st.hi expansion.headI,
                      pref := st.pref.set! st.hi st.last }
          else st
        lzwLoop order fuel (lzwBump st code) (out ++ expansion)
      else .error "lzw: invalid code"

/-- lzw.NewReader with the given order and litWidth 8, drained by
io.ReadAll. -/
def lzwDecode (order : BitOrder) (input : GoStr) : Except String GoStr :=
  lzwLoop order (input.length + 2)
    { input := input, bits := 0, nBits := 0, width := 9, hi := 257, overflow := 512,
      last := lzwInvalid, pref := Array.mkArray 4096 0, suff := Array.mkArray 4096 0 } []

/-- compressDecode (parse.go): lzw.NewReader(r, lzw.LSB, 8). -/
def compressDecode (body : GoStr) : Except String GoStr := lzwDecode .lsb body

/-! ## Request model and pipeline (parse.go, request.go types). -/

def contentEncodingGzip : GoStr := str "gzip"
def contentEncodingXGzip : GoStr := str "x-gzip"
def contentEncodingCompress : GoStr := str "compress"
def contentEncodingXCompress : GoStr := str "x-compress"

/-- ContentEncoding.Validate (message.go): one of the four known tokens. -/
def validContentEncoding (e : GoStr) : Bool :=
  e == contentEncodingXGzip || e == contentEncodingGzip ||
  e == contentEncodingXCompress || e == contentEncodingCompress

/-- Method.Validate (message.go): GET, HEAD or POST. -/
def validMethod (m : GoStr) : Bool :=
  m == str "GET" || m == str "HEAD" || m == str "POST"

/-- RequestHeaders (request.go types; the Referer field holds the Uri
interface value assigned by setReferer, nil when absent; the Go field
From is named fromAddr here because from is a Lean keyword). -/
structure RequestHeaders where
  date : MessageTime
  pragma : PragmaDirectives
  authorization : AuthorizationCredentials
  fromAddr : GoMailAddress
  ifModifiedSince : MessageTime
  referer : Option GoUri
  userAgent : UserAgent
  allow : List GoStr
  contentEncoding : GoStr
  contentLength : Nat
  contentType : ContentType
  expires : MessageTime
  lastModified : MessageTime
  unrecognized : GoMap GoStr
  raw : GoMap GoStr
deriving Repr, DecidableEq

/-- Zero value of RequestHeaders (maps nil, slices empty, times zero). -/
def zeroRequestHeaders : RequestHeaders :=
  { date := zeroMessageTime
    pragma := ⟨none, none⟩
    authorization := ⟨[], none⟩
    fromAddr := ⟨[], []⟩
    ifModifiedSince := zeroMessageTime
    referer := none
    userAgent := ⟨[], []⟩
    allow := []
    contentEncoding := []
    contentLength := 0
    contentType := ⟨[], [], none⟩
    expires := zeroMessageTime
    lastModified := zeroMessageTime
    unrecognized := none
    raw := none }

/-- RequestHeaders.setDate. -/
def setDate (rh : RequestHeaders) (data : GoStr) : Except String RequestHeaders :=
  match parseDate data with
  | .error e => .error ("Invalid date header: " ++ e)
  | .ok date => .ok { rh with date := ⟨date⟩ }

/-- RequestHeaders.setPragma. -/
def setPragma (rh : RequestHeaders) (data : GoStr) : Except String RequestHeaders :=
  match parsePragmaDirectives data with
  | .error e => .error ("Invalid pragma header: " ++ e)
  | .ok pragma => .ok { rh with pragma := pragma }

/-- RequestHeaders.setAuthorization. -/
def setAuthorization (rh : RequestHeaders) (data : GoStr) : Except String RequestHeaders :=
  match parseAuthorizationCredentials data with
  | .error e => .error ("Invalid Authorization header: " ++ e)
  | .ok authorization => .ok { rh with authorization := authorization }

/-- RequestHeaders.setReferer: parseUri on the value. -/
def setReferer (rh : RequestHeaders) (data : GoStr) : Except String RequestHeaders :=
  match parseUri data with
  | .error _ => .error "Invalid Referer header"
  | .ok uri => .ok { rh with referer := some uri }

/-- RequestHeaders.setFrom. -/
def setFrom (rh : RequestHeaders) (data : GoStr) : Except String RequestHeaders :=
  match mailParseAddress data with
  | .error e => .error ("Invalid From header: " ++ e)
  | .ok address => .ok { rh with fromAddr := address }

/-- RequestHeaders.setIfModifiedSince. -/
def setIfModifiedSince (rh : RequestHeaders) (data : GoStr) : Except String RequestHeaders :=
  match parseDate data with
  | .error e => .error ("Invalid If-Modified-Since header: " ++ e)
  | .ok date => .ok { rh with ifModifiedSince := ⟨date⟩ }

/-- RequestHeaders.setUserAgent. -/
def setUserAgent (rh : RequestHeaders) (data : GoStr) : Except String RequestHeaders :=
  match parseUserAgent data with
  | .error e => .error e
  | .ok ua => .ok { rh with userAgent := ua }

/-- RequestHeaders.setAllow: a comma rule list of method tokens. -/
def setAllow (rh : RequestHeaders) (data : GoStr) : Except String RequestHeaders := do
  let rules := rulesExtract data
  let methods ← rules.foldlM
    (fun methods m =>
      match validateToken m with
      | .error _ => throw "Invalid Allow header: includes unsupported methods"
      | .ok _ => pure (methods ++ [m]))
    ([] : List GoStr)
  .ok { rh with allow := methods }

/-- RequestHeaders.setContentEncoding: a token; the four known encodings
are case-normalized to lower case, anything else is stored verbatim. -/
def setContentEncoding (rh : RequestHeaders) (data : GoStr) : Except String RequestHeaders :=
  match validateToken data with
  | .error _ => .error "Invalid Content-Encoding header: malformed value"
  | .ok _ =>
    let lower := toLowerAscii data
    let encoding := if validContentEncoding lower then lower else data
    .ok { rh with contentEncoding := encoding }

/-- RequestHeaders.setContentLength. -/
def setContentLength (rh : RequestHeaders) (data : GoStr) : Except String RequestHeaders :=
  match parseUint64 data with
  | .error _ =>
    .error "Invalid Content-Length header: must be a valid unsigned 64-bit integer"
  | .ok n => .ok { rh with contentLength := n }

/-- RequestHeaders.setContentType. -/
def setContentType (rh : RequestHeaders) (data : GoStr) : Except String RequestHeaders :=
  match parseContentType data with
  | .error e => .error ("Invalid Content-Type header: " ++ e)
  | .ok contentType => .ok { rh with contentType := contentType }

/-- RequestHeaders.setExpires: parses the value as a date and stores it in
the Date field (the source writes rh.Date, not rh.Expires). -/
def setExpires (rh : RequestHeaders) (data : GoStr) : Except String RequestHeaders :=
  match parseDate data with
  | .error e => .error ("Invalid Expires header: " ++ e)
  | .ok expires => .ok { rh with date := ⟨expires⟩ }

/-- RequestHeaders.setLastModified. -/
def setLastModified (rh : RequestHeaders) (data : GoStr) : Except String RequestHeaders :=
  match parseDate data with
  | .error e => .error ("Invalid Last-Modified header: " ++ e)
  | .ok lastModified => .ok { rh with lastModified := ⟨lastModified⟩ }

/-- RequestHeaders.setUnrecognized: validate as text, store under the
original field name (making the map on first use). -/
def setUnrecognized (rh : RequestHeaders) (name data : GoStr) : Except String RequestHeaders :=
  match validateText data with
  | .error e => .error ("Invalid header: " ++ e)
  | .ok _ => .ok { rh with unrecognized := mapWriteInit rh.unrecognized name data }

/-- RequestHeaders.setHeader: dispatch on the header name, then record the
raw name/value pair. -/
def setHeader (rh : RequestHeaders) (name value : GoStr) : Except String RequestHeaders := do
  let rh ←
    if name == str "Date" then setDate rh value
    else if name == str "Pragma" then setPragma rh value
    else if name == str "Authorization" then setAuthorization rh value
    else if name == str "Referer" then setReferer rh value
    else if name == str "From" then setFrom rh value
    else if name == str "If-Modified-Since" then setIfModifiedSince rh value
    else if name == str "User-Agent" then setUserAgent rh value
    else if name == str "Allow" then setAllow rh value
    else if name == str "Content-Encoding" then setContentEncoding rh value
    else if name == str "Content-Length" then setContentLength rh value
    else if name == str "Expires" then setExpires rh value
    else if name == str "Last-Modified" then setLastModified rh value
    else if name == str "Content-Type" then setContentType rh value
    else setUnrecognized rh name value
  .ok { rh with raw := mapWriteInit rh.raw name value }

/-- Header-splitting loop of splitRequestHeaders: at each CRLF decide
continuation (LWS follows) or field boundary (fuel-driven; the CRLF
position strictly increases every iteration). -/
def splitHeadersLoop (data : GoStr) : Nat → Nat → Nat → List GoStr → List GoStr
  | 0, start, _, parts =>
    let last := data.drop start
    if last.length > 0 then parts ++ [last] else parts
  | fuel + 1, start, e, parts =>
    if !(lwsCheck data e).1 then
      let parts := parts ++ [(data.take e).drop start]
      let start := e + 2
      match idxOfCrlf (data.drop start) with
      | some k => splitHeadersLoop data fuel start (start + k) parts
      | none =>
        let last := data.drop start
        if last.length > 0 then parts ++ [last] else parts
    else
      match idxOfCrlf (data.drop (e + 2)) with
      | some k => splitHeadersLoop data fuel start (e + 2 + k) parts
      | none =>
        let last := data.drop start
        if last.length > 0 then parts ++ [last] else parts

/-- splitRequestHeaders (parse.go). -/
def splitRequestHeaders (data : GoStr) : List GoStr :=
  match idxOfCrlf data with
  | none => if data.length > 0 then [data] else []
  | some k => splitHeadersLoop data (data.length + 1) 0 k []

/-- validateHeaderName. -/
def validateHeaderName (data : GoStr) : Except String Unit := validateToken data

/-- Index loop of validateHeaderValue (LWS or non-control bytes). -/
def validateHeaderValueGo (data : GoStr) : Nat → Nat → Except String Unit
  | 0, _ => .ok ()
  | fuel + 1, i =>
    if i < data.length then
      let c := lwsCheck data i
      if c.1 then validateHeaderValueGo data fuel c.2
      else if isControl (at! data i) then
        .error "header value contains invalid control characters"
      else validateHeaderValueGo data fuel (i + 1)
    else .ok ()

/-- validateHeaderValue. -/
def validateHeaderValue (data : GoStr) : Except String Unit :=
  validateHeaderValueGo data (data.length + 1) 0

/-- parseRequestHeaders: split the block into fields, split each on the
first colon, validate name (token) and value (text-like), dispatch.
Name/value validation failures become ClientError / plain errors exactly
as in the source. -/
def parseRequestHeaders (data : GoStr) : Except GoErr RequestHeaders :=
  (splitRequestHeaders data).foldlM (fun headers header => do
    let parts := splitN2 58 header
    if parts.length < 2 then
      throw (GoErr.clientError "Invalid header: cannot determine header name")
    else
      let name := lwsTrimRight parts.headI
      match validateHeaderName name with
      | .error e => throw (GoErr.clientError ("Invalid header: " ++ e))
      | .ok _ =>
        let value := lwsTrimLeft (parts.getD 1 [])
        match validateHeaderValue value with
        | .error e => throw (GoErr.plainError ("Invalid header: " ++ e))
        | .ok _ =>
          match setHeader headers name value with
          | .error e => throw (GoErr.clientError e)
          | .ok headers => pure headers) zeroRequestHeaders

/-- RequestLine (request.go types). -/
structure RequestLine where
  method : GoStr
  uri : RelativeUri
  version : GoStr
deriving Repr, DecidableEq

/-- strconv.Atoi on a decimal with optional sign. -/
def atoiInt (s : GoStr) : Except String Int :=
  let (sign, digits) :=
    match s with
    | 43 :: rest => ((1 : Int), rest)
    | 45 :: rest => ((-1 : Int), rest)
    | _ => ((1 : Int), s)
  if digits.isEmpty then .error "invalid syntax"
  else if digits.all fun b => 48 ≤ b && b ≤ 57 then
    .ok (sign * (digits.foldl (fun acc b => acc * 10 + (b - 48)) 0 : Nat))
  else .error "invalid syntax"

/-- parseVersion: HTTP/d.d with a nonzero major version; yields the part
after the slash. -/
def parseVersion (data : GoStr) : Except String GoStr :=
  if data.length < 8 then .error "incomplete version"
  else
    let parts := splitOnByte 47 data
    if parts.length != 2 || (idxOfByte 46 (parts.getD 1 [])).isNone then
      .error "could not determine version number"
    else if parts.headI != str "HTTP" then .error "wrong protocol"
    else
      let digits := splitOnByte 46 (parts.getD 1 [])
      if digits.length != 2 then .error "malformed version number"
      else
        match atoiInt digits.headI, atoiInt (digits.getD 1 []) with
        | .ok d1, .ok _ =>
          if d1 == 0 then .error "must be at least 1.0" else .ok (parts.getD 1 [])
        | _, _ => .error "contains invalid characters"

/-- parseRequestLine: exactly three space-separated parts; a valid method;
a RelativeUri in abs_path form; a valid version. -/
def parseRequestLine (data : GoStr) : Except GoErr RequestLine := do
  let parts := splitOnByte 32 data
  if parts.length != 3 then
    throw (GoErr.clientError "Invalid request line: malformed request line")
  else
    let m := parts.headI
    if !validMethod m then
      throw (GoErr.clientError "Invalid request line: issue with request method")
    else do
      let uri ← parseRelativeUri (parts.getD 1 [])
      if uri.getPathForm != PathForm.absPath then
        throw (GoErr.plainError
          "Invalid request line: issue with uri (uri must be in the form of an absolute path)")
      else
        match parseVersion (parts.getD 2 []) with
        | .error _ => throw (GoErr.clientError "Invalid request line: issue with version")
        | .ok version => pure ⟨m, uri, version⟩

/-- Request (request.go types). -/
structure Request where
  line : RequestLine
  headers : RequestHeaders
  body : GoStr
deriving Repr, DecidableEq

/-- decodeRequestBody: dispatch on the Content-Encoding.  The gzip decoder
is an external collaborator (compress/gzip) and is taken as a parameter;
no claim depends on its behaviour.  Decoder errors are wrapped in a
ServerError. -/
def decodeRequestBody (gz : GoStr → Except String GoStr) (body : GoStr) (encoding : GoStr) :
    Except GoErr GoStr :=
  let res :=
    if encoding == contentEncodingXGzip || encoding == contentEncodingGzip then gz body
    else if encoding == contentEncodingXCompress || encoding == contentEncodingCompress then
      compressDecode body
    else .ok body
  match res with
  | .error _ => .error (.serverError "unexpected issue decoding body")
  | .ok r => .ok r

/-- parseRequestBody: reject a Content-Length beyond the buffered bytes,
copy the first Content-Length bytes, decode. -/
def parseRequestBody (gz : GoStr → Except String GoStr) (data : GoStr) (rh : RequestHeaders) :
    Except GoErr GoStr :=
  if rh.contentLength > data.length then
    .error (.clientError "Content-Length header exceeds body length")
  else decodeRequestBody gz (data.take rh.contentLength) rh.contentEncoding

/-- Server configuration used by parseRequest.  Modelled from the spec:
the Server struct in src/server.go predates the MaxHeaderBytes /
MaxBodyBytes fields that parse.go reads; the README documents both fields
and the spec gives the defaults 4000 and 64000. -/
structure GoServer where
  maxHeaderBytes : Nat
  maxBodyBytes : Nat
deriving Repr, DecidableEq

/-- Default caps (spec configuration table). -/
def defaultServer : GoServer := ⟨4000, 64000⟩

/-- bufio ReadBytes/ReadString up to a LF over the limited stream: the
line including its LF and the rest, or none at EOF before any LF. -/
def readLine (stream : GoStr) : Option (GoStr × GoStr) :=
  match idxOfByte 10 stream with
  | none => none
  | some k => some (stream.take (k + 1), stream.drop (k + 1))

/-- Header-block read loop of parseRequest: read lines until a bare CRLF,
concatenating them (with their CRLFs); EOF before the blank line is an
error (fuel-driven; every line consumes at least one byte). -/
def readHeaderBlock (stream : GoStr) : Nat → GoStr → Except GoErr (GoStr × GoStr)
  | 0, _ => .error .ioEOF
  | fuel + 1, acc =>
    match readLine stream with
    | none => .error .ioEOF
    | some (line, rest) =>
      if line == str "\r\n" then .ok (acc, rest)
      else readHeaderBlock rest fuel (acc ++ line)

/-- parseRequest (parse.go): the connection is modelled as the byte
sequence readable before EOF; the bufio reader sits on a LimitedReader of
MaxHeaderBytes bytes, so at most that many bytes are readable in total.
io.ReadFull yields io.EOF when nothing is readable and
io.ErrUnexpectedEOF on a partial read. -/
def parseRequest (gz : GoStr → Except String GoStr) (input : GoStr) (server : GoServer) :
    Except GoErr Request := do
  let (lineBuf, rest) ←
    match readLine (input.take server.maxHeaderBytes) with
    | none => throw GoErr.ioEOF
    | some r => pure r
  if !hasCrlfSuffix lineBuf then throw (GoErr.clientError "malformed header suffix")
  else do
    let line ← parseRequestLine (trimCrlfCutset lineBuf)
    let (headerBuf, rest) ← readHeaderBlock rest (rest.length + 1) []
    let headers ← parseRequestHeaders (trimCrlfCutset headerBuf)
    if headers.contentLength > server.maxBodyBytes then
      throw (GoErr.clientError "Content-Length exceeds max allowed by server")
    else do
      let bodyBytes ←
        if headers.contentLength == 0 then pure ([] : GoStr)
        else if rest.isEmpty then throw GoErr.ioEOF
        else if rest.length < headers.contentLength then throw GoErr.ioUnexpectedEOF
        else pure (rest.take headers.contentLength)
      let body ← parseRequestBody gz bodyBytes headers
      pure ⟨line, headers, body⟩

/-! ## Response model and serializer (response.go, marshal.go). -/

def crlf : GoStr := [13, 10]

/-- StatusText (status registry). -/
def statusText (c : Nat) : String :=
  if c == 200 then "OK"
  else if c == 201 then "Created"
  else if c == 202 then "Accepted"
  else if c == 204 then "No Content"
  else if c == 301 then "Moved Permanently"
  else if c == 302 then "Moved Temporarily"
  else if c == 304 then "Not Modified"
  else if c == 400 then "Bad Request"
  else if c == 401 then "Unauthorized"
  else if c == 403 then "Forbidden"
  else if c == 404 then "Not Found"
  else if c == 500 then "Internal Server Error"
  else if c == 501 then "Not Implemented"
  else if c == 502 then "Bad Gateway"
  else if c == 503 then "Service Unavailable"
  else ""

/-- server (response.go): products and comments of the Server header. -/
structure ServerHeader where
  comments : List GoStr
  products : List ProductVersion
deriving Repr, DecidableEq

/-- challenge (response.go). -/
structure Challenge where
  scheme : GoStr
  realm : GoStr
  params : GoMap GoStr
deriving Repr, DecidableEq

/-- Methods (response.go): the Allow header value. -/
structure Methods where
  methods : List GoStr
deriving Repr, DecidableEq

/-- responseHeaders (response.go). -/
structure ResponseHeaders where
  date : MessageTime
  pragma : PragmaDirectives
  location : Option GoUri
  server : ServerHeader
  wwwAuthenticate : Challenge
  allow : Methods
  contentEncoding : GoStr
  contentLength : Nat
  contentType : ContentType
  expires : MessageTime
  lastModified : MessageTime
  unrecognized : GoMap GoStr
deriving Repr, DecidableEq

/-- response (response.go). -/
structure GoResponse where
  code : Nat
  headers : ResponseHeaders
  body : GoStr
deriving Repr, DecidableEq

/-- Zero responseHeaders (nil maps, nil location, zero times). -/
def zeroResponseHeaders : ResponseHeaders :=
  { date := zeroMessageTime
    pragma := ⟨none, none⟩
    location := none
    server := ⟨[], []⟩
    wwwAuthenticate := ⟨[], [], none⟩
    allow := ⟨[]⟩
    contentEncoding := []
    contentLength := 0
    contentType := ⟨[], [], none⟩
    expires := zeroMessageTime
    lastModified := zeroMessageTime
    unrecognized := none }

def zeroResponse : GoResponse := ⟨0, zeroResponseHeaders, []⟩

/-- Join with a multi-byte separator (strings.Join). -/
def joinWith (sep : GoStr) : List GoStr → GoStr
  | [] => []
  | [x] => x
  | x :: y :: rest => x ++ sep ++ joinWith sep (y :: rest)

/-- MessageTime.marshal: RFC1123, empty for the zero time. -/
def messageTimeMarshal (t : MessageTime) : GoStr :=
  if t.date.isZero then [] else rfc1123Render t.date

/-- PragmaDirectives.marshal: sorted flags then sorted name=value options,
space-separated. -/
def pragmaMarshal (p : PragmaDirectives) : GoStr :=
  if mapLen p.flags > 0 || mapLen p.options > 0 then
    joinWith [32]
      (mapSortedKeys p.flags ++
        (mapSortedKeys p.options).map fun name =>
          name ++ 61 :: (mapGet p.options name).getD [])
  else []

/-- ProductVersion.marshal. -/
def productVersionMarshal (pv : ProductVersion) : GoStr :=
  pv.product ++ (if pv.version.length > 0 then 47 :: pv.version else [])

/-- server.marshal: products then comments, space-separated. -/
def serverMarshal (s : ServerHeader) : GoStr :=
  if s.products.length > 0 || s.comments.length > 0 then
    joinWith [32] (s.products.map productVersionMarshal ++ s.comments)
  else []

/-- challenge.marshal: scheme realm=..., then ,name=value for each sorted
param. -/
def challengeMarshal (c : Challenge) : GoStr :=
  (if c.scheme.length > 0 && c.realm.length > 0 then
    c.scheme ++ str " realm=" ++ c.realm
  else []) ++
  (mapSortedKeys c.params).flatMap fun name =>
    44 :: name ++ 61 :: (mapGet c.params name).getD []

/-- Methods.marshal: comma-space separated. -/
def methodsMarshal (m : Methods) : GoStr := joinWith (str ", ") m.methods

/-- ContentEncoding.marshal. -/
def contentEncodingMarshal (ce : GoStr) : GoStr := ce

/-- ContentLength.marshal. -/
def contentLengthMarshal (cl : Nat) : GoStr := natToStr cl

/-- ContentType.marshal: type/subtype then ;name=value for each sorted
parameter. -/
def contentTypeMarshal (ct : ContentType) : GoStr :=
  (if ct.typ.length > 0 && ct.subtype.length > 0 then ct.typ ++ 47 :: ct.subtype
  else []) ++
  (mapSortedKeys ct.parameters).flatMap fun name =>
    59 :: name ++ 61 :: (mapGet ct.parameters name).getD []

/-- code.marshal: the status line. -/
def codeMarshal (c : Nat) : GoStr :=
  str "HTTP/1.0 " ++ natToStr c ++ [32] ++ str (statusText c) ++ crlf

/-- marshalHeader: name: value CRLF, or nothing when the value is empty. -/
def marshalHeader (n : String) (s : GoStr) : GoStr :=
  if s.length == 0 then s else str n ++ str ": " ++ s ++ crlf

/-- responseHeaders.marshal (marshal.go): the fixed header order, the nil
check on Location, Content-Length only with a body, the sorted
Unrecognized loop, and the closing CRLF. -/
def responseHeadersMarshal (h : ResponseHeaders) (hasBody : Bool) : GoStr :=
  marshalHeader "Date" (messageTimeMarshal h.date) ++
  marshalHeader "Pragma" (pragmaMarshal h.pragma) ++
  (match h.location with
   | none => []
   | some u => marshalHeader "Location" u.marshal) ++
  marshalHeader "Server" (serverMarshal h.server) ++
  marshalHeader "WWW-Authenticate" (challengeMarshal h.wwwAuthenticate) ++
  marshalHeader "Allow" (methodsMarshal h.allow) ++
  marshalHeader "Content-Encoding" (contentEncodingMarshal h.contentEncoding) ++
  (if hasBody then marshalHeader "Content-Length" (contentLengthMarshal h.contentLength)
   else []) ++
  marshalHeader "Content-Type" (contentTypeMarshal h.contentType) ++
  marshalHeader "Expires" (messageTimeMarshal h.expires) ++
  marshalHeader "Last-Modified" (messageTimeMarshal h.lastModified) ++
  ((mapSortedKeys h.unrecognized).flatMap fun name =>
    name ++ str ": " ++ (mapGet h.unrecognized name).getD [] ++ crlf) ++
  crlf

/-- response.marshal: status line, headers, body. -/
def responseMarshal (r : GoResponse) : GoStr :=
  codeMarshal r.code ++ responseHeadersMarshal r.headers (r.body.length > 0) ++ r.body

/-! ## ResponseWriter (response.go). -/

/-- Outcome of a writer operation: an error return, or a panic from writing
to a nil map. -/
inductive RWErr where
  | errMsg (msg : String)
  | nilMapFault
deriving Repr, DecidableEq

structure ResponseWriter where
  response : GoResponse
deriving Repr, DecidableEq

/-- The writer value Server.handle passes to the user handler:
ResponseWriter with a zero response. -/
def zeroResponseWriter : ResponseWriter := ⟨zeroResponse⟩

/-- ResponseWriter.SetStatus: only registered codes. -/
def rwSetStatus (rw : ResponseWriter) (c : Nat) : Except RWErr ResponseWriter :=
  if statusText c == "" then .error (.errMsg "not a valid status code")
  else .ok ⟨{ rw.response with code := c }⟩

/-- ResponseWriter.SetLocation: the bytes must parse as an AbsoluteUri. -/
def rwSetLocation (rw : ResponseWriter) (u : GoStr) : Except RWErr ResponseWriter :=
  match parseAbsoluteUri u with
  | .error _ => .error (.errMsg "invalid location uri")
  | .ok uri =>
    .ok ⟨{ rw.response with headers := { rw.response.headers with location := some (.abs uri) } }⟩

/-- ResponseWriter.SetBody: stores the body and updates Content-Length. -/
def rwSetBody (rw : ResponseWriter) (data : GoStr) : ResponseWriter :=
  ⟨{ rw.response with
      body := data
      headers := { rw.response.headers with contentLength := data.length } }⟩

/-- ResponseWriter.redirect (lower case): set Location then replace the
body with the redirect message. -/
def rwRedirectBody (rw : ResponseWriter) (uri : GoStr) : Except RWErr ResponseWriter :=
  match rwSetLocation rw uri with
  | .error _ => .error (.errMsg "problem redirecting")
  | .ok rw => .ok (rwSetBody rw (str "Resource moved to " ++ uri))

/-- ResponseWriter.Redirect: status 301 then redirect (the SetStatus error
is discarded in the source; 301 is always registered). -/
def rwRedirect (rw : ResponseWriter) (uri : GoStr) : Except RWErr ResponseWriter :=
  rwRedirectBody ⟨{ rw.response with code := 301 }⟩ uri

/-- ResponseWriter.RedirectTemporary: status 302 then redirect. -/
def rwRedirectTemporary (rw : ResponseWriter) (uri : GoStr) : Except RWErr ResponseWriter :=
  rwRedirectBody ⟨{ rw.response with code := 302 }⟩ uri

/-- Map delete (Go delete is a no-op on a nil map). -/
def mapDelete (m : GoMap α) (k : GoStr) : GoMap α :=
  m.map fun l => l.filter fun p => p.1 != k

/-- ResponseWriter.SetNoCache: add or delete the no-cache Pragma flag.  The
add writes through the nil-faulting map write (the Go method has no error
return; the only failure mode is the panic). -/
def rwSetNoCache (rw : ResponseWriter) (b : Bool) : Except RWErr ResponseWriter :=
  if b then
    match mapWrite rw.response.headers.pragma.flags (str "no-cache") true with
    | none => .error .nilMapFault
    | some flags =>
      .ok ⟨{ rw.response with headers :=
          { rw.response.headers with pragma := { rw.response.headers.pragma with flags } } }⟩
  else
    .ok ⟨{ rw.response with headers :=
        { rw.response.headers with pragma :=
            { rw.response.headers.pragma with
                flags := mapDelete rw.response.headers.pragma.flags (str "no-cache") } } }⟩

/-- ResponseWriter.AddPragmaHeader: token name, word value; stores the
original value bytes. -/
def rwAddPragmaHeader (rw : ResponseWriter) (name value : GoStr) : Except RWErr ResponseWriter :=
  match validateToken name with
  | .error e => .error (.errMsg e)
  | .ok _ =>
    match parseWord value with
    | .error e => .error (.errMsg e)
    | .ok _ =>
      match mapWrite rw.response.headers.pragma.options name value with
      | none => .error .nilMapFault
      | some options =>
        .ok ⟨{ rw.response with headers :=
            { rw.response.headers with pragma :=
                { rw.response.headers.pragma with options } } }⟩

/-- ResponseWriter.SetChallenge: token scheme, token-or-quoted realm. -/
def rwSetChallenge (rw : ResponseWriter) (scheme realm : GoStr) : Except RWErr ResponseWriter :=
  match validateToken scheme with
  | .error e => .error (.errMsg e)
  | .ok _ =>
    match parseUserQuotedString realm with
    | .error e => .error (.errMsg e)
    | .ok parsed =>
      .ok ⟨{ rw.response with headers :=
          { rw.response.headers with wwwAuthenticate :=
              { rw.response.headers.wwwAuthenticate with scheme := scheme, realm := parsed } } }⟩

/-- ResponseWriter.AddChallengeParameter: token name, token-or-quoted
value, written into the params map. -/
def rwAddChallengeParameter (rw : ResponseWriter) (name value : GoStr) :
    Except RWErr ResponseWriter :=
  match validateToken name with
  | .error e => .error (.errMsg e)
  | .ok _ =>
    match parseUserQuotedString value with
    | .error e => .error (.errMsg e)
    | .ok parsed =>
      match mapWrite rw.response.headers.wwwAuthenticate.params name parsed with
      | none => .error .nilMapFault
      | some params =>
        .ok ⟨{ rw.response with headers :=
            { rw.response.headers with wwwAuthenticate :=
                { rw.response.headers.wwwAuthenticate with params } } }⟩

/-- ResponseWriter.SetHeader: reserved names are refused; the rest are
validated and written into the unrecognized map. -/
def rwSetHeader (rw : ResponseWriter) (name value : GoStr) : Except RWErr ResponseWriter :=
  if name == str "Date" || name == str "Pragma" || name == str "Location" ||
     name == str "Server" || name == str "WWW-Authenticate" || name == str "Allow" ||
     name == str "Content-Encoding" || name == str "Content-Length" ||
     name == str "Content-Type" || name == str "Expires" || name == str "Last-Modified" then
    .error (.errMsg "please use API to set this header")
  else
    match validateHeaderName name with
    | .error e => .error (.errMsg e)
    | .ok _ =>
      match validateHeaderValue value with
      | .error e => .error (.errMsg e)
      | .ok _ =>
        match mapWrite rw.response.headers.unrecognized name value with
        | none => .error .nilMapFault
        | some unrecognized =>
          .ok ⟨{ rw.response with headers :=
              { rw.response.headers with unrecognized } }⟩

/-! ## Spec-side response layout (written from the words of spec section 4.8,
for comparison with the serializer above). -/

/-- Modelled from the spec: the known headers in the canonical order Date,
Pragma, Location, Server, WWW-Authenticate, Allow, Content-Encoding,
Content-Length (only if body present), Content-Type, Expires,
Last-Modified, each paired with its marshalled value. -/
def specKnownHeaders (h : ResponseHeaders) (hasBody : Bool) : List (String × GoStr) :=
  [("Date", messageTimeMarshal h.date),
   ("Pragma", pragmaMarshal h.pragma),
   ("Location", match h.location with | none => [] | some u => u.marshal),
   ("Server", serverMarshal h.server),
   ("WWW-Authenticate", challengeMarshal h.wwwAuthenticate),
   ("Allow", methodsMarshal h.allow),
   ("Content-Encoding", contentEncodingMarshal h.contentEncoding),
   ("Content-Length", if hasBody then contentLengthMarshal h.contentLength else []),
   ("Content-Type", contentTypeMarshal h.contentType),
   ("Expires", messageTimeMarshal h.expires),
   ("Last-Modified", messageTimeMarshal h.lastModified)]

/-- Modelled from the spec: a header line, with a header whose marshalled
value is empty omitted entirely. -/
def specHeaderEntry (p : String × GoStr) : GoStr :=
  if p.2 = [] then [] else str p.1 ++ str ": " ++ p.2 ++ crlf

/-- Modelled from the spec: status line, known headers in canonical order
(empty ones omitted), Unrecognized headers in lexicographic name order, a
blank CRLF, then the body. -/
def specResponseMarshal (r : GoResponse) : GoStr :=
  str "HTTP/1.0 " ++ natToStr r.code ++ [32] ++ str (statusText r.code) ++ crlf ++
  (specKnownHeaders r.headers (r.body.length > 0)).flatMap specHeaderEntry ++
  ((mapSortedKeys r.headers.unrecognized).flatMap fun name =>
    name ++ str ": " ++ (mapGet r.headers.unrecognized name).getD [] ++ crlf) ++
  crlf ++ r.body

/-- Wrapper applied by decodeRequestBody to a decoder result: any decoder
error becomes a ServerError. -/
def wrapDecode (r : Except String GoStr) : Except GoErr GoStr :=
  match r with
  | .error _ => .error (.serverError "unexpected issue decoding body")
  | .ok x => .ok x

end HttpGo

namespace HttpGo

/-! # Claims -/

/-- C4, counterexample: octet 249 is PCHAR (by the derived unreserved
clause) and is not TSPECIAL, yet the one-byte string holding it fails
ValidateToken, because it is not US-ASCII; this refutes the claim that
PCHAR and not-TSPECIAL alone make a valid token byte. -/
theorem c4_counterexample :
    isPChar 249 = true ∧ isTSpecial 249 = false ∧ validateToken [249] ≠ .ok () := by
  refine ⟨by decide, by decide, by decide⟩

/-- C4, amended: for every octet b, if b is PCHAR, not TSPECIAL, and
US-ASCII, then the one-byte string holding b passes ValidateToken. -/
theorem c4_pchar_token_byte :
    ∀ b : Nat, b < 256 → isPChar b = true → isTSpecial b = false →
      isUSAscii b = true → validateToken [b] = .ok () := by
  decide

/-- C4 witness at the octet 65. -/
theorem c4_witness : validateToken [65] = .ok () :=
  c4_pchar_token_byte 65 (by decide) (by decide) (by decide) (by decide)

/-- C1, counterexample: on the LZW stream encoding the bytes hi (produced
with Go lzw.NewWriter in LSB order at width 8), decodeRequestBody under
Content-Encoding compress yields the LSB decoding hi, while the MSB
decoding of the same bytes, which the claim asserts, is not that value. -/
theorem c1_counterexample :
    decodeRequestBody (fun b => .ok b) [104, 210, 4, 4] (str "compress") = .ok [104, 105] ∧
    lzwDecode .msb [104, 210, 4, 4] ≠ .ok [104, 105] := by
  refine ⟨by decide, by decide⟩

/-- C1, amended: compress and x-compress bodies are decoded with LZW in
LSB bit order (Go lzw.LSB, matching the repository encoder) with 8-bit
literal width; gzip and x-gzip bodies go through the gzip decoder; any
other encoding passes the bytes through unchanged.  Decoder errors become
ServerError values. -/
theorem c1_decode_dispatch (gz : GoStr → Except String GoStr) (body enc : GoStr) :
    (enc = contentEncodingCompress ∨ enc = contentEncodingXCompress →
      decodeRequestBody gz body enc = wrapDecode (lzwDecode .lsb body)) ∧
    (enc = contentEncodingGzip ∨ enc = contentEncodingXGzip →
      decodeRequestBody gz body enc = wrapDecode (gz body)) ∧
    (enc ≠ contentEncodingCompress → enc ≠ contentEncodingXCompress →
     enc ≠ contentEncodingGzip → enc ≠ contentEncodingXGzip →
      decodeRequestBody gz body enc = .ok body) := by
  refine ⟨?_, ?_, ?_⟩
  · rintro (rfl | rfl) <;> rfl
  · rintro (rfl | rfl) <;> rfl
  · intro h1 h2 h3 h4
    simp [decodeRequestBody, h1, h2, h3, h4]

/-- C1 witness: the compress branch at a concrete body. -/
theorem c1_witness :
    decodeRequestBody (fun b => .ok b) [104, 210, 4, 4] contentEncodingCompress =
      wrapDecode (lzwDecode .lsb [104, 210, 4, 4]) :=
  (c1_decode_dispatch (fun b => .ok b) [104, 210, 4, 4] contentEncodingCompress).1
    (Or.inl rfl)

/-- C2: on the literal request whose Content-Length (10) exceeds the five
body bytes available before EOF, parseRequest fails, but the error is the
io.ErrUnexpectedEOF returned by io.ReadFull, not a ClientError value: the
ClientError branch in parseRequestBody is unreachable from parseRequest. -/
theorem c2_short_body_not_client_error (gz : GoStr → Except String GoStr) :
    parseRequest gz
        (str "POST / HTTP/1.0\r\nContent-Length: 10\r\nX-Foo: \"Test\"\r\n\r\nhello")
        defaultServer = .error .ioUnexpectedEOF ∧
    GoErr.isClientError .ioUnexpectedEOF = false := by
  refine ⟨rfl, rfl⟩

/-- C5: dispatching an Expires header whose value parses as a date stores
the parsed instant into the Date field and leaves the Expires field (and
every other field except the raw record) unchanged. -/
theorem c5_expires_overwrites_date (rh : RequestHeaders) (v : GoStr) (d : GoTime)
    (h : parseDate v = .ok d) :
    setHeader rh (str "Expires") v =
      .ok { rh with date := ⟨d⟩, raw := mapWriteInit rh.raw (str "Expires") v } := by
  have step : setHeader rh (str "Expires") v =
      (setExpires rh v).bind fun rh2 =>
        .ok { rh2 with raw := mapWriteInit rh2.raw (str "Expires") v } := rfl
  rw [step]
  simp [setExpires, h, Except.bind]

/-- C5 witness at a concrete RFC1123 date. -/
theorem c5_witness :
    parseDate (str "Sun, 06 Nov 1994 08:49:37 GMT") = .ok ⟨1994, 11, 6, 8, 49, 37, "GMT"⟩ ∧
    setHeader zeroRequestHeaders (str "Expires") (str "Sun, 06 Nov 1994 08:49:37 GMT") =
      .ok { zeroRequestHeaders with
              date := ⟨⟨1994, 11, 6, 8, 49, 37, "GMT"⟩⟩,
              raw := mapWriteInit zeroRequestHeaders.raw (str "Expires")
                (str "Sun, 06 Nov 1994 08:49:37 GMT") } :=
  ⟨by decide,
   c5_expires_overwrites_date zeroRequestHeaders (str "Sun, 06 Nov 1994 08:49:37 GMT")
     ⟨1994, 11, 6, 8, 49, 37, "GMT"⟩ (by decide)⟩

/-- C8: the literal folded-header request produces exactly two
Unrecognized entries, with the CRLFs that are followed by SP/HT retained
inside the field values. -/
theorem c8_folded_headers (gz : GoStr → Except String GoStr) :
    (parseRequest gz (str "GET / HTTP/1.0\r\nX-Test: a\r\n\tb\r\nX-Next: c\r\n d\r\n\r\n")
        defaultServer).map (fun r => r.headers.unrecognized) =
      .ok (some [(str "X-Test", str "a\r\n\tb"), (str "X-Next", str "c\r\n d")]) := by
  rfl

/-- C6: whenever the request line and the header block parse successfully
and the parsed Content-Length exceeds the MaxBodyBytes cap, parseRequest
fails with a ClientError (no Request value is produced). -/
theorem c6_content_length_cap (gz : GoStr → Except String GoStr) (input : GoStr)
    (srv : GoServer) (lineBuf rest : GoStr)
    (h1 : readLine (input.take srv.maxHeaderBytes) = some (lineBuf, rest))
    (h2 : hasCrlfSuffix lineBuf = true)
    (line : RequestLine) (h3 : parseRequestLine (trimCrlfCutset lineBuf) = .ok line)
    (hb rest2 : GoStr) (h4 : readHeaderBlock rest (rest.length + 1) [] = .ok (hb, rest2))
    (headers : RequestHeaders) (h5 : parseRequestHeaders (trimCrlfCutset hb) = .ok headers)
    (h6 : headers.contentLength > srv.maxBodyBytes) :
    parseRequest gz input srv =
      .error (.clientError "Content-Length exceeds max allowed by server") := by
  unfold parseRequest
  rw [h1]
  simp only [bind, Except.bind, pure, Except.pure, h2, Bool.not_true, Bool.false_eq_true,
    if_false, h3, h4, h5]
  rw [if_pos h6]
  rfl

/-- C6 witness at a concrete over-cap request. -/
theorem c6_witness :
    parseRequest (fun b => .ok b) (str "GET / HTTP/1.0\r\nContent-Length: 99999\r\n\r\n")
        defaultServer =
      .error (.clientError "Content-Length exceeds max allowed by server") :=
  c6_content_length_cap (fun b => .ok b)
    (str "GET / HTTP/1.0\r\nContent-Length: 99999\r\n\r\n") defaultServer
    (str "GET / HTTP/1.0\r\n") (str "Content-Length: 99999\r\n\r\n") (by decide) (by decide)
    ⟨str "GET", ⟨[], [47], [], []⟩, str "1.0"⟩ (by decide)
    (str "Content-Length: 99999\r\n") [] (by decide)
    { zeroRequestHeaders with
        contentLength := 99999
        raw := some [(str "Content-Length", str "99999")] } (by decide)
    (by decide)

/-- C9: on the zero-value ResponseWriter handed to the user handler by
Server.handle, the Pragma flag/option maps, the challenge parameter map
and the unrecognized-header map are all nil, so SetNoCache(true),
AddPragmaHeader, AddChallengeParameter and SetHeader with otherwise valid
arguments all fault on the nil-map write. -/
theorem c9_zero_writer_faults :
    rwSetNoCache zeroResponseWriter true = .error .nilMapFault ∧
    (∀ n v : GoStr, (validateToken n).isOk = true → (parseWord v).isOk = true →
      rwAddPragmaHeader zeroResponseWriter n v = .error .nilMapFault) ∧
    (∀ n v : GoStr, (validateToken n).isOk = true →
      (parseUserQuotedString v).isOk = true →
      rwAddChallengeParameter zeroResponseWriter n v = .error .nilMapFault) ∧
    (∀ n v : GoStr,
      (n == str "Date" || n == str "Pragma" || n == str "Location" || n == str "Server" ||
       n == str "WWW-Authenticate" || n == str "Allow" || n == str "Content-Encoding" ||
       n == str "Content-Length" || n == str "Content-Type" || n == str "Expires" ||
       n == str "Last-Modified") = false →
      (validateHeaderName n).isOk = true → (validateHeaderValue v).isOk = true →
      rwSetHeader zeroResponseWriter n v = .error .nilMapFault) := by
  refine ⟨rfl, ?_, ?_, ?_⟩
  · intro n v hn hv
    unfold rwAddPragmaHeader
    cases htok : validateToken n with
    | error e => rw [htok] at hn; simp [Except.isOk, Except.toBool] at hn
    | ok u =>
      cases hw : parseWord v with
      | error e => rw [hw] at hv; simp [Except.isOk, Except.toBool] at hv
      | ok w => simp [mapWrite, zeroResponseWriter, zeroResponse, zeroResponseHeaders]
  · intro n v hn hv
    unfold rwAddChallengeParameter
    cases htok : validateToken n with
    | error e => rw [htok] at hn; simp [Except.isOk, Except.toBool] at hn
    | ok u =>
      cases hq : parseUserQuotedString v with
      | error e => rw [hq] at hv; simp [Except.isOk, Except.toBool] at hv
      | ok w => simp [mapWrite, zeroResponseWriter, zeroResponse, zeroResponseHeaders]
  · intro n v hres hn hv
    unfold rwSetHeader
    rw [hres]
    cases hnm : validateHeaderName n with
    | error e => rw [hnm] at hn; simp [Except.isOk, Except.toBool] at hn
    | ok u =>
      cases hvv : validateHeaderValue v with
      | error e => rw [hvv] at hv; simp [Except.isOk, Except.toBool] at hv
      | ok w => simp [mapWrite, zeroResponseWriter, zeroResponse, zeroResponseHeaders]

/-- C9 witness at concrete valid arguments. -/
theorem c9_witness :
    (validateToken (str "p")).isOk = true ∧ (parseWord (str "w")).isOk = true ∧
    (validateHeaderName (str "X-A")).isOk = true ∧
    (validateHeaderValue (str "b")).isOk = true ∧
    rwAddPragmaHeader zeroResponseWriter (str "p") (str "w") = .error .nilMapFault ∧
    rwAddChallengeParameter zeroResponseWriter (str "p") (str "w") = .error .nilMapFault ∧
    rwSetHeader zeroResponseWriter (str "X-A") (str "b") = .error .nilMapFault :=
  ⟨by decide, by decide, by decide, by decide,
   c9_zero_writer_faults.2.1 (str "p") (str "w") (by decide) (by decide),
   c9_zero_writer_faults.2.2.1 (str "p") (str "w") (by decide) (by decide),
   c9_zero_writer_faults.2.2.2 (str "X-A") (str "b") (by decide) (by decide) (by decide)⟩

/-- C10: for any writer and any bytes parsing as an AbsoluteUri, Redirect
sets status 301 and Location, and also replaces the body with
Resource moved to u and sets Content-Length to the length of that body;
RedirectTemporary does the same with 302. -/
theorem c10_redirect_replaces_body (rw : ResponseWriter) (u : GoStr) (a : AbsoluteUri)
    (h : parseAbsoluteUri u = .ok a) :
    rwRedirect rw u = .ok ⟨{ rw.response with
        code := 301
        headers := { rw.response.headers with
          location := some (.abs a)
          contentLength := (str "Resource moved to " ++ u).length }
        body := str "Resource moved to " ++ u }⟩ ∧
    rwRedirectTemporary rw u = .ok ⟨{ rw.response with
        code := 302
        headers := { rw.response.headers with
          location := some (.abs a)
          contentLength := (str "Resource moved to " ++ u).length }
        body := str "Resource moved to " ++ u }⟩ := by
  unfold rwRedirect rwRedirectTemporary rwRedirectBody rwSetLocation rwSetBody
  rw [h]
  exact ⟨rfl, rfl⟩

/-- Helper: marshalHeader agrees with the spec-side header entry. -/
theorem aux_marshalHeader_eq (n : String) (v : GoStr) :
    marshalHeader n v = specHeaderEntry (n, v) := by
  cases v <;> simp [marshalHeader, specHeaderEntry]

/-- Helper: the conditional Content-Length emission agrees with the
spec-side entry whose value is empty without a body. -/
theorem aux_contentLength_entry (b : Bool) (cl : Nat) :
    (if b then marshalHeader "Content-Length" (contentLengthMarshal cl) else []) =
      specHeaderEntry ("Content-Length", if b then contentLengthMarshal cl else []) := by
  cases b
  · simp [specHeaderEntry]
  · simp [aux_marshalHeader_eq]

/-- Helper: the nil-guarded Location emission agrees with the spec-side
entry whose value is empty for a nil location. -/
theorem aux_location_entry (l : Option GoUri) :
    (match l with | none => ([] : GoStr) | some u => marshalHeader "Location" u.marshal) =
      specHeaderEntry ("Location", match l with | none => [] | some u => u.marshal) := by
  cases l
  · simp [specHeaderEntry]
  · simp [aux_marshalHeader_eq]

/-- C7: for every response with a registered status code, the serializer
emits exactly the spec layout: the status line, the known headers in the
fixed order (Content-Length only with a non-empty body, empty-valued
headers omitted), the Unrecognized headers in lexicographic name order, a
blank CRLF, and the body. -/
theorem c7_serializer_layout (r : GoResponse) (h : statusText r.code ≠ "") :
    responseMarshal r = specResponseMarshal r := by
  unfold responseMarshal specResponseMarshal responseHeadersMarshal specKnownHeaders codeMarshal
  rw [aux_location_entry, aux_contentLength_entry]
  simp only [aux_marshalHeader_eq, List.flatMap_cons, List.flatMap_nil, List.append_nil,
    List.append_assoc]

/-- C7 witness at a concrete 200 response with headers, unrecognized
fields and a body. -/
theorem c7_witness :
    statusText 200 ≠ "" ∧
    responseMarshal ⟨200,
      { zeroResponseHeaders with
          date := ⟨⟨2024, 1, 2, 15, 4, 5, "GMT"⟩⟩
          server := ⟨[], [⟨str "myserver", str "2.1"⟩]⟩
          contentType := ⟨str "text", str "html", some [(str "charset", str "utf-8")]⟩
          contentLength := 14
          unrecognized := some [(str "X-Foo", str "bar"), (str "X-Baz", str "qux")] },
      str "<h1>Hello</h1>"⟩ =
    specResponseMarshal ⟨200,
      { zeroResponseHeaders with
          date := ⟨⟨2024, 1, 2, 15, 4, 5, "GMT"⟩⟩
          server := ⟨[], [⟨str "myserver", str "2.1"⟩]⟩
          contentType := ⟨str "text", str "html", some [(str "charset", str "utf-8")]⟩
          contentLength := 14
          unrecognized := some [(str "X-Foo", str "bar"), (str "X-Baz", str "qux")] },
      str "<h1>Hello</h1>"⟩ :=
  ⟨by decide,
   c7_serializer_layout ⟨200,
      { zeroResponseHeaders with
          date := ⟨⟨2024, 1, 2, 15, 4, 5, "GMT"⟩⟩
          server := ⟨[], [⟨str "myserver", str "2.1"⟩]⟩
          contentType := ⟨str "text", str "html", some [(str "charset", str "utf-8")]⟩
          contentLength := 14
          unrecognized := some [(str "X-Foo", str "bar"), (str "X-Baz", str "qux")] },
      str "<h1>Hello</h1>"⟩ (by decide)⟩

/-! ### Helper lemmas for the URI round-trip claim. -/

/-- Helper: a split always produces at least one piece. -/
theorem aux_split_ne_nil (sep : Nat) (l : GoStr) : splitOnByte sep l ≠ [] := by
  cases l with
  | nil => simp [splitOnByte]
  | cons c cs =>
    simp only [splitOnByte]
    split <;> simp

/-- Helper: joining the pieces of a split restores the data. -/
theorem aux_join_split (sep : Nat) (l : GoStr) :
    joinBytes sep (splitOnByte sep l) = l := by
  induction l with
  | nil => rfl
  | cons c cs ih =>
    simp only [splitOnByte]
    cases hr : splitOnByte sep cs with
    | nil => exact absurd hr (aux_split_ne_nil sep cs)
    | cons rh rt =>
      rw [hr] at ih
      by_cases hc : (c == sep) = true
      · have hcs : c = sep := by simpa using hc
        simp only [hc, if_true, joinBytes]
        rw [ih]
        simp [hcs]
      · simp only [hc, if_false, List.headI, List.tail]
        cases rt with
        | nil => simpa [joinBytes] using congrArg (c :: ·) ih
        | cons t ts =>
          simp only [joinBytes] at ih ⊢
          rw [← ih]
          simp

/-- Helper: splitting a string without the separator yields one piece. -/
theorem aux_split_no_sep (sep : Nat) (l : GoStr) (h : sep ∉ l) :
    splitOnByte sep l = [l] := by
  induction l with
  | nil => rfl
  | cons c cs ih =>
    simp only [List.mem_cons, not_or] at h
    simp only [splitOnByte, ih h.2]
    have : (c == sep) = false := by
      simp [Ne.symm h.1]
    simp [this]

/-- Helper: splitting data that is a separator-free piece, the separator,
then a tail, yields the piece followed by the split of the tail. -/
theorem aux_split_append (sep : Nat) (p t : GoStr) (h : sep ∉ p) :
    splitOnByte sep (p ++ sep :: t) = p :: splitOnByte sep t := by
  induction p with
  | nil => simp [splitOnByte]
  | cons c cs ih =>
    simp only [List.mem_cons, not_or] at h
    have hcb : (c == sep) = false := by simp [Ne.symm h.1]
    simp only [List.cons_append, splitOnByte, List.append_eq]
    rw [ih h.2, hcb]
    simp

/-- Helper: splitting the join of nonempty, separator-free pieces restores
the pieces. -/
theorem aux_split_join (sep : Nat) (ps : List GoStr) (hne : ps ≠ [])
    (h : ∀ p ∈ ps, sep ∉ p) : splitOnByte sep (joinBytes sep ps) = ps := by
  induction ps with
  | nil => exact absurd rfl hne
  | cons p rest ih =>
    cases rest with
    | nil =>
      simp only [joinBytes]
      exact aux_split_no_sep sep p (h p (by simp))
    | cons q qs =>
      simp only [joinBytes]
      rw [aux_split_append sep p _ (h p (by simp))]
      rw [ih (by simp) (fun x hx => h x (by simp [hx]))]

/-- Helper: members of joined pieces. -/
theorem aux_mem_join (sep b : Nat) (ps : List GoStr) (p : GoStr)
    (hp : p ∈ ps) (hb : b ∈ p) : b ∈ joinBytes sep ps := by
  induction ps with
  | nil => cases hp
  | cons x rest ih =>
    cases rest with
    | nil =>
      simp only [List.mem_singleton] at hp
      subst hp
      simpa [joinBytes] using hb
    | cons y ys =>
      simp only [joinBytes, List.mem_append, List.mem_cons]
      rcases List.mem_cons.1 hp with rfl | hp2
      · exact Or.inl hb
      · exact Or.inr (Or.inr (ih hp2))

/-- Helper: index of a byte after a prefix not containing it. -/
theorem aux_idx_append (b : Nat) (p t : GoStr) (h : b ∉ p) :
    idxOfByte b (p ++ t) = (idxOfByte b t).map (· + p.length) := by
  induction p with
  | nil => simp
  | cons c cs ih =>
    simp only [List.mem_cons, not_or] at h
    have hcb : (c == b) = false := by simp [Ne.symm h.1]
    simp only [List.cons_append, idxOfByte, List.append_eq]
    rw [hcb]
    simp only [Bool.false_eq_true, if_false, ih h.2]
    cases idxOfByte b t with
    | none => rfl
    | some k =>
      simp [Nat.add_assoc]

/-- Helper: a byte absent from the data has no index. -/
theorem aux_idx_none (b : Nat) (l : GoStr) (h : b ∉ l) : idxOfByte b l = none := by
  have := aux_idx_append b l [] h
  simpa using this

/-- Helper: every byte of a successful decode satisfies the predicate. -/
theorem aux_decode_mem (pred : Nat → Bool) (e : GoErr) (l out : GoStr)
    (h : decodeBytes pred e l = .ok out) : ∀ b ∈ out, pred b = true := by
  induction l using decodeBytes.induct pred e generalizing out with
  | case1 =>
    simp only [decodeBytes] at h
    cases h
    simp
  | case2 c hc =>
    simp [decodeBytes, hc] at h
  | case3 c hc h1 er hhex =>
    rw [decodeBytes] at h
    simp [hc, hhex] at h
  | case4 c hc h1 v hhex =>
    rw [decodeBytes] at h
    simp [hc, hhex] at h
  | case5 c hc h1 h2 rest2 er hhex =>
    rw [decodeBytes] at h
    simp [hc, hhex] at h
  | case6 c hc h1 h2 rest2 v1 hhex1 er hhex2 =>
    rw [decodeBytes] at h
    simp [hc, hhex1, hhex2] at h
  | case7 c hc h1 h2 rest2 v1 hhex1 v2 hhex2 b hp ih =>
    rw [decodeBytes] at h
    simp only [hc, if_true, hhex1, hhex2] at h
    rw [if_pos hp] at h
    cases hd : decodeBytes pred e rest2 with
    | error er => rw [hd] at h; cases h
    | ok out2 =>
      rw [hd] at h
      cases h
      intro x hx
      rcases List.mem_cons.1 hx with rfl | hx2
      · exact hp
      · exact ih out2 hd x hx2
  | case8 c hc h1 h2 rest2 v1 hhex1 v2 hhex2 b hp =>
    rw [decodeBytes] at h
    simp only [hc, if_true, hhex1, hhex2] at h
    rw [if_neg hp] at h
    cases h
  | case9 c rest hc hp ih =>
    rw [decodeBytes.eq_def] at h
    simp only [hc, hp, if_true, Bool.false_eq_true, if_false] at h
    cases hd : decodeBytes pred e rest with
    | error er => rw [hd] at h; cases h
    | ok out2 =>
      rw [hd] at h
      cases h
      intro x hx
      rcases List.mem_cons.1 hx with rfl | hx2
      · exact hp
      · exact ih out2 hd x hx2
  | case10 c rest hc hp =>
    rw [decodeBytes.eq_def] at h
    simp [hc, hp] at h

/-- Helper: a successful decode is empty exactly when the input is. -/
theorem aux_decode_nil_iff (pred : Nat → Bool) (e : GoErr) (l out : GoStr)
    (h : decodeBytes pred e l = .ok out) : l = [] ↔ out = [] := by
  induction l using decodeBytes.induct pred e generalizing out with
  | case1 =>
    simp only [decodeBytes] at h
    cases h
    simp
  | case2 c hc =>
    simp [decodeBytes, hc] at h
  | case3 c hc h1 er hhex =>
    rw [decodeBytes] at h
    simp [hc, hhex] at h
  | case4 c hc h1 v hhex =>
    rw [decodeBytes] at h
    simp [hc, hhex] at h
  | case5 c hc h1 h2 rest2 er hhex =>
    rw [decodeBytes] at h
    simp [hc, hhex] at h
  | case6 c hc h1 h2 rest2 v1 hhex1 er hhex2 =>
    rw [decodeBytes] at h
    simp [hc, hhex1, hhex2] at h
  | case7 c hc h1 h2 rest2 v1 hhex1 v2 hhex2 b hp ih =>
    rw [decodeBytes] at h
    simp only [hc, if_true, hhex1, hhex2] at h
    rw [if_pos hp] at h
    cases hd : decodeBytes pred e rest2 with
    | error er => rw [hd] at h; cases h
    | ok out2 =>
      rw [hd] at h
      cases h
      simp
  | case8 c hc h1 h2 rest2 v1 hhex1 v2 hhex2 b hp =>
    rw [decodeBytes] at h
    simp only [hc, if_true, hhex1, hhex2] at h
    rw [if_neg hp] at h
    cases h
  | case9 c rest hc hp ih =>
    rw [decodeBytes.eq_def] at h
    simp only [hc, hp, if_true, Bool.false_eq_true, if_false] at h
    cases hd : decodeBytes pred e rest with
    | error er => rw [hd] at h; cases h
    | ok out2 =>
      rw [hd] at h
      cases h
      simp
  | case10 c rest hc hp =>
    rw [decodeBytes.eq_def] at h
    simp [hc, hp] at h

/-- Helper: a percent-free input every byte of which satisfies the
predicate decodes to itself. -/
theorem aux_decode_id (pred : Nat → Bool) (e : GoErr) (l : GoStr)
    (h : ∀ b ∈ l, pred b = true ∧ b ≠ 37) : decodeBytes pred e l = .ok l := by
  induction l with
  | nil => rfl
  | cons c rest ih =>
    have hc := h c (by simp)
    have hcb : (c == 37) = false := by simp [hc.2]
    rw [decodeBytes.eq_def]
    simp only [hcb, Bool.false_eq_true, if_false, hc.1, if_true]
    rw [ih (fun b hb => h b (by simp [hb]))]
    rfl

/-- Helper: a successful exceptMapM gives the elementwise relation. -/
theorem aux_mapM_forall2 (f : GoStr → Except GoErr GoStr) (xs ys : List GoStr)
    (h : exceptMapM f xs = .ok ys) : List.Forall₂ (fun x y => f x = .ok y) xs ys := by
  induction xs generalizing ys with
  | nil =>
    simp only [exceptMapM] at h
    cases h
    exact List.Forall₂.nil
  | cons x rest ih =>
    rw [exceptMapM] at h
    cases hx : f x with
    | error er => simp [hx, bind, Except.bind] at h
    | ok y =>
      cases hrest : exceptMapM f rest with
      | error er => simp [hx, hrest, bind, Except.bind] at h
      | ok ys2 =>
        simp only [hx, hrest, bind, Except.bind] at h
        cases h
        exact List.Forall₂.cons hx (ih ys2 hrest)

/-- Helper: exceptMapM of a function that is the identity on every
element. -/
theorem aux_mapM_id (f : GoStr → Except GoErr GoStr) (xs : List GoStr)
    (h : ∀ x ∈ xs, f x = .ok x) : exceptMapM f xs = .ok xs := by
  induction xs with
  | nil => rfl
  | cons x rest ih =>
    rw [exceptMapM, h x (by simp)]
    show (exceptMapM f rest).bind _ = _
    rw [ih (fun y hy => h y (by simp [hy]))]
    rfl

/-- Helper: right members of a Forall₂ relation come from left members. -/
theorem aux_forall2_mem_right {R : GoStr → GoStr → Prop} {xs ys : List GoStr}
    (h : List.Forall₂ R xs ys) (y : GoStr) (hy : y ∈ ys) : ∃ x ∈ xs, R x y := by
  induction h with
  | nil => cases hy
  | cons hr _ ih =>
    rcases List.mem_cons.1 hy with rfl | hy2
    · exact ⟨_, by simp, hr⟩
    · obtain ⟨x, hx, hxy⟩ := ih hy2
      exact ⟨x, by simp [hx], hxy⟩

/-- Helper: members of a join are members of a piece or the separator. -/
theorem aux_mem_join_inv (sep b : Nat) (ps : List GoStr) (hb : b ∈ joinBytes sep ps) :
    (∃ p ∈ ps, b ∈ p) ∨ b = sep := by
  induction ps with
  | nil => cases hb
  | cons x rest ih =>
    cases rest with
    | nil =>
      simp only [joinBytes] at hb
      exact Or.inl ⟨x, by simp, hb⟩
    | cons y ys =>
      simp only [joinBytes, List.mem_append, List.mem_cons] at hb
      rcases hb with hx | rfl | hj
      · exact Or.inl ⟨x, by simp, hx⟩
      · exact Or.inr rfl
      · rcases ih hj with ⟨p, hp, hbp⟩ | rfl
        · exact Or.inl ⟨p, by simp [hp], hbp⟩
        · exact Or.inr rfl

/-- Helper: the head of a join of pieces whose first piece is nonempty. -/
theorem aux_headI_join (sep : Nat) (p : GoStr) (ps : List GoStr) (hp : p ≠ []) :
    (joinBytes sep (p :: ps)).headI = p.headI := by
  cases ps with
  | nil => rfl
  | cons q qs =>
    simp only [joinBytes]
    cases p with
    | nil => exact absurd rfl hp
    | cons c cs => rfl

/-- Helper: a Forall₂ relation holds between the heads of nonempty lists. -/
theorem aux_forall2_headI {R : GoStr → GoStr → Prop} {xs ys : List GoStr}
    (h : List.Forall₂ R xs ys) (hne : xs ≠ []) : R xs.headI ys.headI := by
  cases h with
  | nil => exact absurd rfl hne
  | cons hr _ => exact hr

/-- Helper: inversion of parseUriPath. -/
theorem aux_path_inv (inp out : GoStr) (h : parseUriPath inp = .ok out) :
    ∃ segs,
      exceptMapM (decodeBytes isPChar (.plainError "path contains invalid byte"))
        (splitOnByte 47 inp) = .ok segs ∧
      out = joinBytes 47 segs ∧
      ((splitOnByte 47 inp).length > 1 → (splitOnByte 47 inp).headI ≠ []) := by
  simp only [parseUriPath] at h
  by_cases hg : (decide ((splitOnByte 47 inp).length > 1) &&
      (splitOnByte 47 inp).headI.isEmpty) = true
  · rw [if_pos hg] at h; cases h
  · rw [if_neg hg] at h
    cases hm : exceptMapM (decodeBytes isPChar (.plainError "path contains invalid byte"))
        (splitOnByte 47 inp) with
    | error er => rw [hm] at h; cases h
    | ok segs =>
      rw [hm] at h
      cases h
      refine ⟨segs, rfl, rfl, ?_⟩
      intro hlen
      simp only [Bool.and_eq_true, decide_eq_true_eq, not_and] at hg
      intro hhead
      exact (by simpa [hhead] using hg hlen)

/-- Helper: structure of a successful parseUriPath result. -/
theorem aux_path_props (inp out : GoStr) (h : parseUriPath inp = .ok out) :
    ∃ segs, out = joinBytes 47 segs ∧ segs ≠ [] ∧
      (∀ s ∈ segs, ∀ b ∈ s, isPChar b = true) ∧
      (segs.length > 1 → segs.headI ≠ []) := by
  obtain ⟨segs, hm, hout, hguard⟩ := aux_path_inv inp out h
  have f2 := aux_mapM_forall2 _ _ _ hm
  have hlen := f2.length_eq
  refine ⟨segs, hout, ?_, ?_, ?_⟩
  · intro hnil
    subst hnil
    simp only [List.length_nil] at hlen
    exact aux_split_ne_nil 47 inp (List.length_eq_zero.1 hlen)
  · intro s hs b hb
    obtain ⟨x, _, hx⟩ := aux_forall2_mem_right f2 s hs
    exact aux_decode_mem _ _ _ _ hx b hb
  · intro hlong
    have hx1 : (splitOnByte 47 inp).length > 1 := by rw [hlen]; exact hlong
    have hxne : (splitOnByte 47 inp) ≠ [] := aux_split_ne_nil 47 inp
    have hr := aux_forall2_headI f2 hxne
    have hhne := hguard hx1
    have := aux_decode_nil_iff _ _ _ _ hr
    intro hy
    exact hhne (this.2 hy)

/-- Helper: every byte of a parseUriPath result is PCHAR or a slash. -/
theorem aux_path_bytes (inp out : GoStr) (h : parseUriPath inp = .ok out) :
    ∀ b ∈ out, isPChar b = true ∨ b = 47 := by
  obtain ⟨segs, hout, _, hmem, _⟩ := aux_path_props inp out h
  intro b hb
  subst hout
  rcases aux_mem_join_inv 47 b segs hb with ⟨p, hp, hbp⟩ | rfl
  · exact Or.inl (hmem p hp b hbp)
  · exact Or.inr rfl

/-- Helper: a nonempty parseUriPath result starts with a PCHAR byte. -/
theorem aux_path_headI (inp out : GoStr) (h : parseUriPath inp = .ok out)
    (hne : out ≠ []) : isPChar out.headI = true := by
  obtain ⟨segs, hout, hsne, hmem, hguard⟩ := aux_path_props inp out h
  subst hout
  cases segs with
  | nil => exact absurd rfl hsne
  | cons s rest =>
    cases rest with
    | nil =>
      simp only [joinBytes] at hne ⊢
      cases s with
      | nil => exact absurd rfl hne
      | cons c cs => exact hmem (c :: cs) (by simp) c (by simp)
    | cons t ts =>
      have hs : s ≠ [] := hguard (by simp)
      rw [aux_headI_join 47 s (t :: ts) hs]
      cases s with
      | nil => exact absurd rfl hs
      | cons c cs => exact hmem (c :: cs) (by simp) c (by simp)

/-- Helper: a percent-free parseUriPath result re-parses to itself. -/
theorem aux_path_id (inp out : GoStr) (h : parseUriPath inp = .ok out)
    (hnp : 37 ∉ out) : parseUriPath out = .ok out := by
  obtain ⟨segs, hout, hsne, hmem, hguard⟩ := aux_path_props inp out h
  have hsep : ∀ s ∈ segs, 47 ∉ s := by
    intro s hs h47
    have := hmem s hs 47 h47
    simp [isPChar, isUnreserved, isAlpha, isNumeric, isSafe, isExtra, isReserved,
      isUnsafeChar, isControl, isEscape] at this
  have hsplit : splitOnByte 47 out = segs := by
    rw [hout]; exact aux_split_join 47 segs hsne hsep
  simp only [parseUriPath, hsplit]
  have hguard2 : (decide (segs.length > 1) && segs.headI.isEmpty) = false := by
    by_cases hl : segs.length > 1
    · have := hguard hl
      rw [decide_eq_true hl, Bool.true_and]
      cases hh : segs.headI with
      | nil => exact absurd hh this
      | cons a as => rfl
    · simp [hl]
  rw [hguard2]
  simp only [Bool.false_eq_true, if_false]
  have hmapid : exceptMapM (decodeBytes isPChar (.plainError "path contains invalid byte"))
      segs = .ok segs := by
    refine aux_mapM_id _ _ ?_
    intro s hs
    refine aux_decode_id _ _ _ ?_
    intro b hb
    refine ⟨hmem s hs b hb, ?_⟩
    intro hb37
    subst hb37
    exact hnp (by rw [hout]; exact aux_mem_join 47 37 segs s hs hb)
  rw [hmapid]
  simp [bind, Except.bind, hout]

/-- Helper: structure of a successful parseUriParams result. -/
theorem aux_params_props (ps : GoStr) (prms : List GoStr)
    (h : parseUriParams ps = .ok prms) :
    (∀ p ∈ prms, ∀ b ∈ p, (isPChar b || b == 47) = true) ∧ prms ≠ [[]] := by
  simp only [parseUriParams] at h
  by_cases he : ps.isEmpty = true
  · rw [if_pos he] at h
    cases h
    exact ⟨by simp, by simp⟩
  · rw [if_neg he] at h
    have f2 := aux_mapM_forall2 _ _ _ h
    constructor
    · intro p hp b hb
      obtain ⟨x, _, hx⟩ := aux_forall2_mem_right f2 p hp
      exact aux_decode_mem _ _ _ _ hx b hb
    · intro hbad
      subst hbad
      have hlen := f2.length_eq
      simp only [List.length_singleton] at hlen
      have hr := aux_forall2_headI f2 (aux_split_ne_nil 59 ps)
      have hnil := (aux_decode_nil_iff _ _ _ _ hr).2 (by simp)
      have hone : splitOnByte 59 ps = [(splitOnByte 59 ps).headI] := by
        cases hs : splitOnByte 59 ps with
        | nil => exact absurd hs (aux_split_ne_nil 59 ps)
        | cons a rest =>
          rw [hs] at hlen
          simp only [List.length_cons] at hlen
          have hrest : rest = [] := List.length_eq_zero.1 (by omega)
          subst hrest
          rfl
      have := aux_join_split 59 ps
      rw [hone, hnil] at this
      simp only [joinBytes] at this
      exact he (by rw [← this]; rfl)

/-- Helper: a nonempty, percent-free parseUriParams result re-parses from
its join, which is nonempty. -/
theorem aux_params_id (ps : GoStr) (prms : List GoStr)
    (h : parseUriParams ps = .ok prms) (hne : prms ≠ [])
    (hnp : ∀ p ∈ prms, 37 ∉ p) :
    parseUriParams (joinBytes 59 prms) = .ok prms ∧ joinBytes 59 prms ≠ [] := by
  obtain ⟨hmem, hnbad⟩ := aux_params_props ps prms h
  have hsep : ∀ p ∈ prms, 59 ∉ p := by
    intro p hp h59
    have := hmem p hp 59 h59
    simp [isPChar, isUnreserved, isAlpha, isNumeric, isSafe, isExtra, isReserved,
      isUnsafeChar, isControl, isEscape] at this
  have hjne : joinBytes 59 prms ≠ [] := by
    cases prms with
    | nil => exact absurd rfl hne
    | cons p rest =>
      cases rest with
      | nil =>
        simp only [joinBytes]
        intro hp
        exact hnbad (by rw [hp])
      | cons q qs => simp [joinBytes]
  refine ⟨?_, hjne⟩
  have hsplit := aux_split_join 59 prms hne hsep
  simp only [parseUriParams]
  rw [if_neg (by simpa [List.isEmpty_iff] using hjne), hsplit]
  refine aux_mapM_id _ _ ?_
  intro p hp
  refine aux_decode_id _ _ _ ?_
  intro b hb
  refine ⟨hmem p hp b hb, ?_⟩
  intro hb37
  subst hb37
  exact hnp p hp hb

/-- Helper: a percent-free parseUriQuery result re-parses to itself. -/
theorem aux_query_id (qs q : GoStr) (h : parseUriQuery qs = .ok q)
    (hnp : 37 ∉ q) : parseUriQuery q = .ok q := by
  refine aux_decode_id _ _ _ ?_
  intro b hb
  refine ⟨aux_decode_mem _ _ _ _ h b hb, ?_⟩
  intro hb37
  subst hb37
  exact hnp hb

/-- Helper: bytes of a parseUriQuery result are reserved or unreserved. -/
theorem aux_query_bytes (qs q : GoStr) (h : parseUriQuery qs = .ok q) :
    ∀ b ∈ q, (isReserved b || isUnreserved b) = true :=
  aux_decode_mem _ _ _ _ h

/-- Helper: re-parsing the marshalled rel_path section (path, optional
params, optional query) recovers the three components. -/
theorem aux_relpath_reassemble (pp : GoStr) (prms : List GoStr) (q : GoStr)
    (hpath : parseUriPath pp = .ok pp)
    (hparams : parseUriParams (joinBytes 59 prms) = .ok prms)
    (hquery : parseUriQuery q = .ok q)
    (hp63 : 63 ∉ pp) (hp59 : 59 ∉ pp) (hj63 : 63 ∉ joinBytes 59 prms) :
    parseRelPathUri (pp ++ (if prms.length > 0 then 59 :: joinBytes 59 prms else []) ++
      (if q.length > 0 then 63 :: q else [])) = .ok (pp, prms, q) := by
  by_cases hpr : prms.length > 0
  · by_cases hq : q.length > 0
    · rw [if_pos hpr, if_pos hq]
      have hA63 : 63 ∉ pp ++ 59 :: joinBytes 59 prms := by
        simp only [List.mem_append, List.mem_cons, not_or]
        exact ⟨hp63, by omega, hj63⟩
      have h63 : idxOfByte 63 ((pp ++ 59 :: joinBytes 59 prms) ++ 63 :: q) =
          some (pp ++ 59 :: joinBytes 59 prms).length := by
        rw [aux_idx_append 63 _ _ hA63]
        simp [idxOfByte]
      have h59 : idxOfByte 59 ((pp ++ 59 :: joinBytes 59 prms) ++ 63 :: q) =
          some pp.length := by
        rw [show (pp ++ 59 :: joinBytes 59 prms) ++ 63 :: q =
            pp ++ 59 :: (joinBytes 59 prms ++ 63 :: q) by simp]
        rw [aux_idx_append 59 pp _ hp59]
        simp [idxOfByte]
      have hcond : pp.length < (pp ++ 59 :: joinBytes 59 prms).length := by
        simp
      have hqslice : ((pp ++ 59 :: joinBytes 59 prms) ++ 63 :: q).drop
          ((pp ++ 59 :: joinBytes 59 prms).length + 1) = q := by
        rw [List.drop_append 1]
        rfl
      have htakeq : ((pp ++ 59 :: joinBytes 59 prms) ++ 63 :: q).take
          (pp ++ 59 :: joinBytes 59 prms).length = pp ++ 59 :: joinBytes 59 prms :=
        List.take_left _ _
      have hpslice : (pp ++ 59 :: joinBytes 59 prms).drop (pp.length + 1) =
          joinBytes 59 prms := by
        rw [List.drop_append 1]
        rfl
      have htakep : ((pp ++ 59 :: joinBytes 59 prms) ++ 63 :: q).take pp.length = pp := by
        rw [show (pp ++ 59 :: joinBytes 59 prms) ++ 63 :: q =
            pp ++ 59 :: (joinBytes 59 prms ++ 63 :: q) by simp]
        exact List.take_left _ _
      simp only [parseRelPathUri, h63, h59, if_pos hcond, hqslice, htakeq, hpslice, htakep,
        hpath, hparams, hquery]
      rfl
    · have hqnil : q = [] := by
        simpa using hq
      subst hqnil
      rw [if_pos hpr, if_neg hq, List.append_nil]
      have h63 : idxOfByte 63 (pp ++ 59 :: joinBytes 59 prms) = none := by
        refine aux_idx_none 63 _ ?_
        simp only [List.mem_append, List.mem_cons, not_or]
        exact ⟨hp63, by omega, hj63⟩
      have h59 : idxOfByte 59 (pp ++ 59 :: joinBytes 59 prms) = some pp.length := by
        rw [aux_idx_append 59 pp _ hp59]
        simp [idxOfByte]
      have hcond : pp.length < (pp ++ 59 :: joinBytes 59 prms).length := by simp
      have hpslice : (pp ++ 59 :: joinBytes 59 prms).drop (pp.length + 1) =
          joinBytes 59 prms := by
        rw [List.drop_append 1]
        rfl
      have htakep : (pp ++ 59 :: joinBytes 59 prms).take pp.length = pp :=
        List.take_left _ _
      simp only [parseRelPathUri, h63, h59, if_pos hcond, List.take_length, hpslice, htakep,
        hpath, hparams, hquery]
      rfl
  · have hprnil : prms = [] := by
      simpa using hpr
    subst hprnil
    simp only [joinBytes] at hparams ⊢
    by_cases hq : q.length > 0
    · rw [if_neg hpr, if_pos hq, List.append_nil]
      have h63 : idxOfByte 63 (pp ++ 63 :: q) = some pp.length := by
        rw [aux_idx_append 63 pp _ hp63]
        simp [idxOfByte]
      have hqslice : (pp ++ 63 :: q).drop (pp.length + 1) = q := by
        rw [List.drop_append 1]
        rfl
      have htakep : (pp ++ 63 :: q).take pp.length = pp := List.take_left _ _
      have h59base : idxOfByte 59 (pp ++ 63 :: q) =
          (idxOfByte 59 q).map (fun x => x + 1 + pp.length) := by
        rw [aux_idx_append 59 pp _ hp59]
        simp only [idxOfByte]
        norm_num
        cases idxOfByte 59 q <;> simp <;> omega
      cases hk : idxOfByte 59 q with
      | none =>
        rw [hk] at h59base
        simp only [Option.map] at h59base
        simp only [parseRelPathUri, h63, h59base, hqslice, htakep, hpath, hparams, hquery]
        rfl
      | some k =>
        rw [hk] at h59base
        simp only [Option.map] at h59base
        have hcond : ¬ (k + 1 + pp.length < pp.length) := by omega
        simp only [parseRelPathUri, h63, h59base, if_neg hcond, hqslice, htakep,
          hpath, hparams, hquery]
        rfl
    · have hqnil : q = [] := by simpa using hq
      subst hqnil
      rw [if_neg hpr, if_neg hq, List.append_nil, List.append_nil]
      have h63 : idxOfByte 63 pp = none := aux_idx_none 63 pp hp63
      have h59 : idxOfByte 59 pp = none := aux_idx_none 59 pp hp59
      simp only [parseRelPathUri, h63, h59, List.take_length, hpath, hparams, hquery]
      rfl

/-- Helper: inversion of the three-step rel_path chain. -/
theorem aux_chain3_inv (a : Except GoErr GoStr) (b : Except GoErr (List GoStr))
    (c : Except GoErr GoStr) (res : GoStr × List GoStr × GoStr)
    (h : (do
      let path ←
        match a with
        | .ok p => pure p
        | .error _ => throw (GoErr.clientError "Invalid request uri path")
      let params ←
        match b with
        | .ok p => pure p
        | .error _ => throw (GoErr.clientError "Invalid request uri params")
      let query ←
        match c with
        | .ok q2 => pure q2
        | .error _ => throw (GoErr.clientError "Invalid request uri queries")
      Except.ok (path, params, query) : Except GoErr (GoStr × List GoStr × GoStr)) = .ok res) :
    a = .ok res.1 ∧ b = .ok res.2.1 ∧ c = .ok res.2.2 := by
  cases a with
  | error e => simp [bind, Except.bind, throw, throwThe, MonadExcept.throw] at h
  | ok pa =>
    cases b with
    | error e => simp [bind, Except.bind, throw, throwThe, MonadExcept.throw, pure, Except.pure] at h
    | ok pb =>
      cases c with
      | error e => simp [bind, Except.bind, throw, throwThe, MonadExcept.throw, pure, Except.pure] at h
      | ok pc =>
        simp only [bind, Except.bind, pure, Except.pure] at h
        cases h
        exact ⟨rfl, rfl, rfl⟩

theorem aux_relpath_inv (d pth : GoStr) (prms : List GoStr) (q : GoStr)
    (h : parseRelPathUri d = .ok (pth, prms, q)) :
    (∃ inp, parseUriPath inp = .ok pth) ∧ (∃ ps, parseUriParams ps = .ok prms) ∧
    (∃ qs, parseUriQuery qs = .ok q) := by
  simp only [parseRelPathUri] at h
  obtain ⟨h1, h2, h3⟩ := aux_chain3_inv _ _ _ _ h
  exact ⟨⟨_, h1⟩, ⟨_, h2⟩, ⟨_, h3⟩⟩

/-- C10 witness at a concrete absolute URI. -/
theorem c10_witness :
    parseAbsoluteUri (str "http://a") = .ok ⟨str "http", str "//a"⟩ ∧
    rwRedirect zeroResponseWriter (str "http://a") = .ok ⟨{ zeroResponse with
        code := 301
        headers := { zeroResponseHeaders with
          location := some (.abs ⟨str "http", str "//a"⟩)
          contentLength := (str "Resource moved to " ++ str "http://a").length }
        body := str "Resource moved to " ++ str "http://a" }⟩ :=
  ⟨by decide,
   (c10_redirect_replaces_body zeroResponseWriter (str "http://a")
      ⟨str "http", str "//a"⟩ (by decide)).1⟩

/-- Helper: a successful parseAbsUri result starts with a slash and its tail is a rel_path parse. -/
theorem aux_absuri_inv (d pth : GoStr) (prms : List GoStr) (q : GoStr)
    (h : parseAbsUri d = .ok (pth, prms, q)) :
    ∃ p2, pth = 47 :: p2 ∧ parseRelPathUri (d.drop 1) = .ok (p2, prms, q) := by
  simp only [parseAbsUri] at h
  by_cases hg : (d.isEmpty || at! d 0 != 47) = true
  · rw [if_pos hg] at h; cases h
  · rw [if_neg hg] at h
    cases hR : parseRelPathUri (d.drop 1) with
    | error e => rw [hR] at h; cases h
    | ok t =>
      rw [hR] at h
      obtain ⟨p2, prms2, q2⟩ := t
      cases h
      exact ⟨p2, rfl, rfl⟩

/-- Helper: indexing a nonempty list at 0 is headI. -/
theorem aux_headI_at (p : GoStr) (hne : p ≠ []) : at! p 0 = p.headI := by
  cases p with
  | nil => exact absurd rfl hne
  | cons c cs => rfl

/-- Helper: abs_path form means empty NetLoc and a path starting with a slash. -/
theorem aux_form_abs (u : RelativeUri) (hf : u.getPathForm = .absPath) :
    u.netLoc = [] ∧ u.path ≠ [] ∧ at! u.path 0 = 47 := by
  simp only [RelativeUri.getPathForm] at hf
  by_cases h1 : u.netLoc.length > 0
  · rw [if_pos h1] at hf; cases hf
  · rw [if_neg h1] at hf
    have hnet : u.netLoc = [] := by
      cases hn : u.netLoc with
      | nil => rfl
      | cons a as => rw [hn] at h1; simp at h1
    by_cases h2 : (u.path.length == 0 || at! u.path 0 != 47) = true
    · rw [if_pos h2] at hf; cases hf
    · refine ⟨hnet, ?_, ?_⟩
      · intro hpn
        rw [hpn] at h2
        simp at h2
      · simp only [Bool.or_eq_true, not_or, beq_iff_eq, bne_iff_ne] at h2
        have := h2.2
        omega

/-- Helper: inversion of parseRelativeUri on an abs_path result. -/
theorem aux_reluri_abs_inv (B : GoStr) (u : RelativeUri)
    (hp : parseRelativeUri B = .ok u) (hf : u.getPathForm = .absPath) :
    u.netLoc = [] ∧ ∃ p2, u.path = 47 :: p2 ∧
      (∃ inp, parseUriPath inp = .ok p2) ∧
      (∃ ps, parseUriParams ps = .ok u.params) ∧
      (∃ qs, parseUriQuery qs = .ok u.query) := by
  obtain ⟨hnet, hpne, hp47⟩ := aux_form_abs u hf
  refine ⟨hnet, ?_⟩
  have habs : ∀ d, parseAbsUri d = .ok (u.path, u.params, u.query) →
      ∃ p2, u.path = 47 :: p2 ∧
        (∃ inp, parseUriPath inp = .ok p2) ∧
        (∃ ps, parseUriParams ps = .ok u.params) ∧
        (∃ qs, parseUriQuery qs = .ok u.query) := by
    intro d hd
    obtain ⟨p2, hpeq, hrel⟩ := aux_absuri_inv d u.path u.params u.query hd
    obtain ⟨hip, hips, hiq⟩ := aux_relpath_inv _ _ _ _ hrel
    exact ⟨p2, hpeq, hip, hips, hiq⟩
  simp only [parseRelativeUri] at hp
  by_cases hnl : (decide (B.length ≥ 2) && at! B 0 == 47 && at! B 1 == 47) = true
  · rw [hnl] at hp
    simp only [if_true] at hp
    by_cases hst : (2 + ((B.drop 2).takeWhile
        fun b => isPChar b || b == 59 || b == 63).length == B.length) = true
    · rw [if_pos hst] at hp
      cases hp
      exact absurd rfl hpne
    · rw [if_neg hst] at hp
      have hgt : (decide (2 + ((B.drop 2).takeWhile
          fun b => isPChar b || b == 59 || b == 63).length > 0) ||
          at! B (2 + ((B.drop 2).takeWhile
          fun b => isPChar b || b == 59 || b == 63).length) == 47) = true := by
        simp
      rw [hgt] at hp
      simp only [if_true] at hp
      cases hA : parseAbsUri (B.drop (2 + ((B.drop 2).takeWhile
          fun b => isPChar b || b == 59 || b == 63).length)) with
      | error e => rw [hA] at hp; cases hp
      | ok t =>
        rw [hA] at hp
        obtain ⟨p, prms, q⟩ := t
        cases hp
        exact habs _ hA
  · rw [Bool.not_eq_true] at hnl
    rw [hnl] at hp
    simp only [Bool.false_eq_true, if_false, List.length_nil, Nat.add_zero] at hp
    by_cases hst : (0 == B.length) = true
    · rw [if_pos hst] at hp
      cases hp
      exact absurd rfl hpne
    · rw [if_neg hst] at hp
      simp only [List.drop_zero, Nat.lt_irrefl, decide_False, Bool.false_or] at hp
      by_cases h47 : (at! B 0 == 47) = true
      · rw [h47] at hp
        simp only [if_true] at hp
        cases hA : parseAbsUri B with
        | error e => rw [hA] at hp; cases hp
        | ok t =>
          rw [hA] at hp
          obtain ⟨p, prms, q⟩ := t
          cases hp
          exact habs _ hA
      · rw [Bool.not_eq_true] at h47
        rw [h47] at hp
        simp only [Bool.false_eq_true, if_false] at hp
        cases hR : parseRelPathUri B with
        | error e => rw [hR] at hp; cases hp
        | ok t =>
          rw [hR] at hp
          obtain ⟨p, prms, q⟩ := t
          cases hp
          obtain ⟨⟨inp, hip⟩, _, _⟩ := aux_relpath_inv _ _ _ _ hR
          have hpc := aux_path_headI inp p hip hpne
          rw [aux_headI_at p hpne] at hp47
          rw [hp47] at hpc
          simp [isPChar, isUnreserved, isAlpha, isNumeric, isSafe, isExtra,
            isReserved, isUnsafeChar, isControl, isEscape] at hpc
/-- Helper: the marshalled tail after the leading slash never starts with a slash. -/
theorem aux_tail_head_ne47 (p2 : GoStr) (prm : List GoStr) (qq : GoStr)
    (hph : p2 ≠ [] → p2.headI ≠ 47) (c : Nat) (cs : GoStr)
    (h : (p2 ++ (if prm.length > 0 then 59 :: joinBytes 59 prm else []) ++
      (if qq.length > 0 then 63 :: qq else [])) = c :: cs) : c ≠ 47 := by
  cases p2 with
  | cons a as =>
    simp only [List.cons_append] at h
    injection h with h1 h2
    intro hc
    subst hc
    exact hph (by simp) h1
  | nil =>
    simp only [List.nil_append] at h
    by_cases hprm : prm.length > 0
    · rw [if_pos hprm] at h
      simp only [List.cons_append] at h
      injection h with h1 h2
      omega
    · rw [if_neg hprm] at h
      simp only [List.nil_append] at h
      by_cases hq : qq.length > 0
      · rw [if_pos hq] at h
        injection h with h1 h2
        omega
      · rw [if_neg hq] at h
        cases h

/-- C3 (amended): for every byte sequence B on which parseRelativeUri succeeds
with form abs_path, if the parsed Path, Params and Query contain no percent
byte (0x25), then marshalling the RelativeUri and re-parsing the marshalled
bytes yields the same value.  (The original claim without the percent-free
condition fails: percent-decoding makes marshal-then-reparse lossy, see the
counterexample.) -/
theorem c3_roundtrip (B : GoStr) (u : RelativeUri)
    (hp : parseRelativeUri B = .ok u) (hf : u.getPathForm = .absPath)
    (hnp : 37 ∉ u.path) (hnprm : ∀ p ∈ u.params, 37 ∉ p) (hnq : 37 ∉ u.query) :
    parseRelativeUri u.marshal = .ok u := by
  obtain ⟨nl, pth, prm, qq⟩ := u
  obtain ⟨hnet, p2, hpeq, ⟨inp, hip⟩, ⟨ps, hips⟩, ⟨qs, hiq⟩⟩ :=
    aux_reluri_abs_inv B ⟨nl, pth, prm, qq⟩ hp hf
  have hnet2 : nl = [] := hnet
  have hpeq2 : pth = 47 :: p2 := hpeq
  subst hnet2
  subst hpeq2
  have hnp2 : 37 ∉ p2 := fun hmem => hnp (List.mem_cons_of_mem _ hmem)
  have hp2bytes := aux_path_bytes inp p2 hip
  have hp63 : 63 ∉ p2 := by
    intro hmem
    rcases hp2bytes 63 hmem with hc | hc
    · exact absurd hc (by decide)
    · omega
  have hp59 : 59 ∉ p2 := by
    intro hmem
    rcases hp2bytes 59 hmem with hc | hc
    · exact absurd hc (by decide)
    · omega
  have hj63 : 63 ∉ joinBytes 59 prm := by
    intro hmem
    rcases aux_mem_join_inv 59 63 prm hmem with ⟨p, hpm, hbp⟩ | h59
    · have := (aux_params_props ps prm hips).1 p hpm 63 hbp
      exact absurd this (by decide)
    · omega
  have hpid : parseUriPath p2 = .ok p2 := aux_path_id inp p2 hip hnp2
  have hqid : parseUriQuery qq = .ok qq := aux_query_id qs qq hiq hnq
  have hprid : parseUriParams (joinBytes 59 prm) = .ok prm := by
    cases hpe : prm with
    | nil => rfl
    | cons a as =>
      rw [← hpe]
      exact (aux_params_id ps prm hips (by rw [hpe]; simp) hnprm).1
  have hph : p2 ≠ [] → p2.headI ≠ 47 := by
    intro hne heq
    have := aux_path_headI inp p2 hip hne
    rw [heq] at this
    exact absurd this (by decide)
  have hRe := aux_relpath_reassemble p2 prm qq hpid hprid hqid hp63 hp59 hj63
  have hM : RelativeUri.marshal ⟨[], 47 :: p2, prm, qq⟩ =
      47 :: (p2 ++ (if prm.length > 0 then 59 :: joinBytes 59 prm else []) ++
        (if qq.length > 0 then 63 :: qq else [])) := by
    simp [RelativeUri.marshal]
  rw [hM]
  have hAbs : parseAbsUri (47 :: (p2 ++
      (if prm.length > 0 then 59 :: joinBytes 59 prm else []) ++
      (if qq.length > 0 then 63 :: qq else []))) = .ok (47 :: p2, prm, qq) := by
    simp only [parseAbsUri]
    rw [show ((47 :: (p2 ++
        (if prm.length > 0 then 59 :: joinBytes 59 prm else []) ++
        (if qq.length > 0 then 63 :: qq else []))).isEmpty ||
        at! (47 :: (p2 ++
        (if prm.length > 0 then 59 :: joinBytes 59 prm else []) ++
        (if qq.length > 0 then 63 :: qq else []))) 0 != 47) = false from rfl]
    simp only [Bool.false_eq_true, if_false, List.drop_succ_cons, List.drop_zero]
    rw [hRe]
  have hNL : (decide ((47 :: (p2 ++
      (if prm.length > 0 then 59 :: joinBytes 59 prm else []) ++
      (if qq.length > 0 then 63 :: qq else []))).length ≥ 2) &&
      at! (47 :: (p2 ++
      (if prm.length > 0 then 59 :: joinBytes 59 prm else []) ++
      (if qq.length > 0 then 63 :: qq else []))) 0 == 47 &&
      at! (47 :: (p2 ++
      (if prm.length > 0 then 59 :: joinBytes 59 prm else []) ++
      (if qq.length > 0 then 63 :: qq else []))) 1 == 47) = false := by
    cases hT : (p2 ++
        (if prm.length > 0 then 59 :: joinBytes 59 prm else []) ++
        (if qq.length > 0 then 63 :: qq else [])) with
    | nil => rfl
    | cons c cs =>
      have hc := aux_tail_head_ne47 p2 prm qq hph c cs hT
      have hat : at! (47 :: c :: cs) 1 = c := rfl
      simp [hat, hc]
  simp only [parseRelativeUri]
  rw [hNL]
  simp only [Bool.false_eq_true, if_false, List.length_nil, Nat.add_zero]
  rw [show (0 == (47 :: (p2 ++
      (if prm.length > 0 then 59 :: joinBytes 59 prm else []) ++
      (if qq.length > 0 then 63 :: qq else []))).length) = false by simp]
  simp only [Bool.false_eq_true, if_false]
  rw [show (decide (0 > 0) || at! (47 :: (p2 ++
      (if prm.length > 0 then 59 :: joinBytes 59 prm else []) ++
      (if qq.length > 0 then 63 :: qq else []))) 0 == 47) = true from rfl]
  simp only [if_true, List.drop_zero]
  rw [hAbs]

/-- C3 counterexample to the unconditional round-trip: the bytes /%2541
parse to the abs_path value with Path /%41, whose marshalled form re-parses
to Path /A, a different value. -/
theorem c3_counterexample :
    parseRelativeUri (str "/%2541") = .ok ⟨[], str "/%41", [], []⟩ ∧
    RelativeUri.getPathForm ⟨[], str "/%41", [], []⟩ = .absPath ∧
    parseRelativeUri (RelativeUri.marshal ⟨[], str "/%41", [], []⟩) =
      .ok ⟨[], str "/A", [], []⟩ ∧
    (⟨[], str "/A", [], []⟩ : RelativeUri) ≠ ⟨[], str "/%41", [], []⟩ := by
  refine ⟨by decide, by decide, by decide, by decide⟩

/-- C3 witness: the amended round-trip at the concrete input /a;p1;p2?q=1. -/
theorem c3_witness :
    parseRelativeUri
      (RelativeUri.marshal ⟨[], str "/a", [str "p1", str "p2"], str "q=1"⟩) =
      .ok ⟨[], str "/a", [str "p1", str "p2"], str "q=1"⟩ :=
  c3_roundtrip (str "/a;p1;p2?q=1") ⟨[], str "/a", [str "p1", str "p2"], str "q=1"⟩
    (by decide) (by decide) (by decide) (by decide) (by decide)

end HttpGo
